import Mathlib

/-
Verification development for the QBench ingestion/synchronization engine
(`downloader_qbench_data`): a shallow embedding of the API client retry and
token-refresh logic, the on-demand dependency recovery service, the
per-entity sync workers, and the multi-entity pipeline orchestrator,
together with theorems about their behaviour.

Machine integers are modelled as `Int`/`Nat`; timestamps (the results of
`parse_qbench_datetime` and `time.time()`) are modelled as abstract
`Int`/`ℚ` instants; HTTP and database effects are modelled by explicit
state threading.
-/

namespace QBD

/-! ## Shared helpers -/

/-- Result of `attempt_dependency_recovery` (class `DependencyRecoveryOutcome`). -/
structure RecoveryOutcome where
  succeeded : Bool
  attempts : Nat
  error : Option String
deriving DecidableEq

/-- A skipped item as recorded in a worker summary (class `SkippedEntity`),
with the `details` dictionary flattened into the dependency id, the recovery
attempt count and the recovery error it carries. -/
structure SkippedEntity where
  entityId : Option Int
  reason : String
  depId : Option Int := none
  recoveryAttempts : Option Nat := none
  recoveryError : Option String := none
deriving DecidableEq

/-- Python truthiness on an optional integer field (`if not order_id:`):
`None` and `0` are both falsy. -/
def truthyId : Option Int → Option Int
  | none => none
  | some v => if v = 0 then none else some v

/-- The staleness test shared by all workers:
`not full_refresh and last_id is not None and item_id <= last_id`. -/
def isStale (fullRefresh : Bool) (lastId : Option Int) (itemId : Int) : Bool :=
  !fullRefresh &&
    (match lastId with
     | some l => decide (itemId ≤ l)
     | none => false)

/-- Mirrors `created_at and created_at < start_datetime` on optional values. -/
def ltOpt (created bound : Option Int) : Bool :=
  match created, bound with
  | some c, some b => decide (c < b)
  | _, _ => false

/-- Mirrors `created_at and created_at > end_datetime` on optional values. -/
def gtOpt (created bound : Option Int) : Bool :=
  match created, bound with
  | some c, some b => decide (b < c)
  | _, _ => false

/-- The update `if created_at and (max is None or created_at > max)` applied
to the running maximum timestamp. -/
def maxOptTime (current : Option Int) (created : Option Int) : Option Int :=
  match created with
  | none => current
  | some c =>
    match current with
    | none => some c
    | some m => if m < c then some c else some m

/-- The update `if max_id is None or item_id > max_id` applied to the running
maximum id. -/
def maxOptId (current : Option Int) (itemId : Int) : Option Int :=
  match current with
  | none => some itemId
  | some m => if m < itemId then some itemId else some m

/-- Ordering on optional watermarks: `none` is below everything, two stored
watermarks compare numerically, and a stored watermark is never below `none`. -/
def optLe : Option Int → Option Int → Prop
  | none, _ => True
  | some _, none => False
  | some a, some b => a ≤ b

instance : DecidablePred fun p : Option Int × Option Int => optLe p.1 p.2 := by
  intro p
  rcases p with ⟨a, b⟩
  cases a <;> cases b <;> simp [optLe] <;> infer_instance

instance (a b : Option Int) : Decidable (optLe a b) := by
  cases a <;> cases b <;> simp [optLe] <;> infer_instance

/-! ## Remote API client: `QBenchClient._request` (qbench.py) -/

/-- An HTTP response as `_request` inspects it: the status code, the
`Retry-After` header after `float` parsing (`none` = header absent or falsy,
`some none` = present but unparsable, `some (some q)` = parses to `q`), and
whether a 400 body carries one of the two recognised auth error codes
(`invalid_request` with the matching description, or `invalid_grant`). -/
structure HttpResponse where
  status : Nat
  retryAfter : Option (Option ℚ) := none
  authErrorBody : Bool := false
deriving DecidableEq

/-- The outcome of `_request`: the returned response, the number of HTTP
calls issued, the sequence of sleeps performed, and how many
re-authentications happened. -/
structure ReqTrace where
  response : HttpResponse
  calls : Nat
  sleeps : List ℚ
  reauths : Nat
deriving DecidableEq

/-- The retry loop of `QBenchClient._request`.  `responses n` is the response
to the `n`-th HTTP call the client issues (counting from 0).  The loop state
mirrors the Python locals `attempt`, `reauth_attempts`, `delay` and the
accumulated effects (`calls`, `sleeps`). -/
def requestLoop (responses : Nat → HttpResponse) (maxRetries : Nat) (backoffFactor : ℚ)
    (attempt reauth : Nat) (delay : ℚ) (calls : Nat) (sleeps : List ℚ) : ReqTrace :=
  let resp := responses calls
  let calls1 := calls + 1
  if resp.status = 401 then
    let resp2 := responses calls1
    let calls2 := calls1 + 1
    let reauth1 := reauth + 1
    if h1 : maxRetries < reauth1 then ⟨resp2, calls2, sleeps, reauth1⟩
    else if resp2.status = 401 then
      requestLoop responses maxRetries backoffFactor attempt reauth1 delay calls2 sleeps
    else if resp2.status ≠ 429 then ⟨resp2, calls2, sleeps, reauth1⟩
    else
      let attempt1 := attempt + 1
      if h2 : maxRetries < attempt1 then ⟨resp2, calls2, sleeps, reauth1⟩
      else
        let sleepSeconds :=
          match resp2.retryAfter with
          | some (some q) => q
          | _ => delay
        requestLoop responses maxRetries backoffFactor attempt1 reauth1
          (delay * backoffFactor) calls2 (sleeps ++ [sleepSeconds])
  else if resp.status = 400 && resp.authErrorBody then
    if h3 : maxRetries ≤ reauth then ⟨resp, calls1, sleeps, reauth⟩
    else
      requestLoop responses maxRetries backoffFactor attempt (reauth + 1) delay calls1
        (sleeps ++ [(1 : ℚ)])
  else if resp.status ≠ 429 then ⟨resp, calls1, sleeps, reauth⟩
  else
    let attempt1 := attempt + 1
    if h4 : maxRetries < attempt1 then ⟨resp, calls1, sleeps, reauth⟩
    else
      let sleepSeconds :=
        match resp.retryAfter with
        | some (some q) => q
        | _ => delay
      requestLoop responses maxRetries backoffFactor attempt1 reauth
        (delay * backoffFactor) calls1 (sleeps ++ [sleepSeconds])
termination_by (maxRetries + 1 - attempt) + (maxRetries + 1 - reauth)
decreasing_by
  · omega
  · omega
  · omega
  · omega

/-- `_request` as called: `max_retries=5`, `backoff_factor=2.0`, initial
`attempt=0`, `delay=1.0`, `reauth_attempts=0`. -/
def sendRequest (responses : Nat → HttpResponse) : ReqTrace :=
  requestLoop responses 5 2 0 0 1 0 []

/-! ## Token lifecycle: `_ensure_token_valid` / `_calculate_token_expiry` -/

/-- `_TOKEN_REFRESH_MARGIN_SECONDS`. -/
def TOKEN_REFRESH_MARGIN : ℚ := 60

/-- `_DEFAULT_TOKEN_LIFETIME_SECONDS`. -/
def DEFAULT_TOKEN_LIFETIME : ℚ := 3600

/-- `_calculate_token_expiry`: `expiresIn` is the parsed `expires_in` from the
token payload (`none` when missing or unparsable); non-positive or missing
values fall back to the default lifetime. -/
def calculateTokenExpiry (now : ℚ) (expiresIn : Option ℚ) : ℚ :=
  match expiresIn with
  | some e => if e ≤ 0 then now + DEFAULT_TOKEN_LIFETIME else now + e
  | none => now + DEFAULT_TOKEN_LIFETIME

/-- The client-instance token state: `_token_expires_at`. -/
structure TokenState where
  expiresAt : Option ℚ
deriving DecidableEq

/-- `_ensure_token_valid`: returns whether a re-authentication happened, and
the updated token state.  A re-authentication obtains a token now whose
`expires_in` is `newExpiresIn`. -/
def ensureTokenValid (ts : TokenState) (now : ℚ) (newExpiresIn : Option ℚ) :
    Bool × TokenState :=
  match ts.expiresAt with
  | none => (false, ts)
  | some exp =>
    if now < exp - TOKEN_REFRESH_MARGIN then (false, ts)
    else (true, ⟨some (calculateTokenExpiry now newExpiresIn)⟩)

/-! ## Dependency recovery service (recovery.py) -/

/-- The five entity kinds. -/
inductive EntityType
  | customers
  | orders
  | samples
  | batches
  | tests
deriving DecidableEq

def EntityType.typeName : EntityType → String
  | .customers => "customers"
  | .orders => "orders"
  | .samples => "samples"
  | .batches => "batches"
  | .tests => "tests"

/-- The `ENTITY_ALIASES` dictionary of recovery.py. -/
def ENTITY_ALIASES (s : String) : Option EntityType :=
  if s = "customer" ∨ s = "customers" then some .customers
  else if s = "order" ∨ s = "orders" then some .orders
  else if s = "sample" ∨ s = "samples" then some .samples
  else if s = "batch" ∨ s = "batches" then some .batches
  else if s = "test" ∨ s = "tests" then some .tests
  else none

abbrev EntityKey := EntityType × Int

/-- A fetched-and-transformed remote payload as recovery's control flow sees
it: `depId` is the single required dependency reference the transform
extracts (`customer_account_id` for orders, `order_id` for samples,
`sample_id` for tests; irrelevant for customers and batches), and `rawRefs`
records any other entity references present in the raw payload, which
`_extract_dependencies` never consults. -/
structure RemotePayload where
  depId : Option Int := none
  rawRefs : List EntityKey := []
deriving DecidableEq

/-- `_extract_dependencies`: the kind of the single required dependency of
each entity kind (orders → customers, samples → orders, tests → samples;
customers and batches have none). -/
def depTarget : EntityType → Option EntityType
  | .orders => some .customers
  | .samples => some .orders
  | .tests => some .samples
  | _ => none

/-- The remote system backing `_fetch`: a finite table of payloads. -/
structure RecoveryEnv where
  remote : List (EntityKey × RemotePayload)

/-- `_fetch`: returns the payload when the remote system has the entity. -/
def fetchRemote (env : RecoveryEnv) (k : EntityKey) : Option RemotePayload :=
  (env.remote.find? fun p => p.fst = k).map Prod.snd

/-- The set of keys the remote system can answer. -/
def envKeys (env : RecoveryEnv) : Finset EntityKey :=
  (env.remote.map Prod.fst).toFinset

/-- The local relational store as recovery's `_exists`/`_persist_record` see
it: the set of persisted `(kind, id)` rows.  (The checkpoint bookkeeping of
`_persist_record` is not needed by any property below and is omitted.) -/
structure RecoveryState where
  localKeys : List EntityKey
deriving DecidableEq

/-- The `RecoveryError` values `_recover` can raise. -/
inductive RecoveryException
  | cyclicDependency (t : EntityType) (i : Int)
  | notFoundRemote (t : EntityType) (i : Int)
  | missingDependencyId (dt : EntityType) (t : EntityType) (i : Int)
deriving DecidableEq

/-- `str(exc)` for each `RecoveryError`. -/
def RecoveryException.message : RecoveryException → String
  | .cyclicDependency t i => "cyclic_dependency:" ++ t.typeName ++ ":" ++ toString i
  | .notFoundRemote t i => "not_found_remote:" ++ t.typeName ++ ":" ++ toString i
  | .missingDependencyId dt t i =>
      "missing_dependency_id:" ++ dt.typeName ++ ":" ++ t.typeName ++ ":" ++ toString i

/-- `EntityRecoveryService._recover`: check the visited set, then the local
store, then fetch remotely; recover the extracted dependency first, and only
then persist the entity itself.  An exception aborts the whole call with no
persists (persists happen bottom-up after the full dependency chain
succeeded).  Terminates because every recursive call inserts a fresh
remote-backed key into the visited set. -/
def recover (env : RecoveryEnv) (st : RecoveryState) (t : EntityType) (i : Int)
    (visited : Finset EntityKey) : Except RecoveryException RecoveryState :=
  if hv : (t, i) ∈ visited then .error (.cyclicDependency t i)
  else
    if (t, i) ∈ st.localKeys then .ok st
    else
      match hf : fetchRemote env (t, i) with
      | none => .error (.notFoundRemote t i)
      | some payload =>
        match depTarget t with
        | none => .ok ⟨(t, i) :: st.localKeys⟩
        | some dt =>
          match payload.depId with
          | none => .error (.missingDependencyId dt t i)
          | some di =>
            match recover env st dt di (insert (t, i) visited) with
            | .error e => .error e
            | .ok st1 => .ok ⟨(t, i) :: st1.localKeys⟩
termination_by (envKeys env \ visited).card
decreasing_by
  apply Finset.card_lt_card
  constructor
  · exact Finset.sdiff_subset_sdiff le_rfl (Finset.subset_insert _ _)
  · intro hsub
    have hkmem : (t, i) ∈ envKeys env := by
      unfold fetchRemote at hf
      rcases Option.map_eq_some'.mp hf with ⟨pair, hfind, _⟩
      have hmem2 := List.mem_of_find?_eq_some hfind
      have hkey := List.find?_some hfind
      have heq : pair.fst = (t, i) := by
        by_contra hne
        simp [hne] at hkey
      unfold envKeys
      rw [List.mem_toFinset]
      exact heq ▸ List.mem_map_of_mem Prod.fst hmem2
    have hx : (t, i) ∈ envKeys env \ visited := Finset.mem_sdiff.mpr ⟨hkmem, hv⟩
    have hx2 := hsub hx
    rw [Finset.mem_sdiff] at hx2
    exact hx2.2 (Finset.mem_insert_self _ _)

/-- `EnsureResult`. -/
structure EnsureResult where
  succeeded : Bool
  error : Option String := none
deriving DecidableEq

/-- `EntityRecoveryService.ensure`: normalise the entity type, run
`_recover` with a fresh visited set, and convert any `RecoveryError` into a
failed `EnsureResult` carrying its message. -/
def ensure (env : RecoveryEnv) (st : RecoveryState) (entityType : String)
    (entityId : Int) : EnsureResult × RecoveryState :=
  match ENTITY_ALIASES entityType with
  | none => (⟨false, some ("unsupported_entity:" ++ entityType)⟩, st)
  | some t =>
    match recover env st t entityId ∅ with
    | .ok st1 => (⟨true, none⟩, st1)
    | .error e => (⟨false, some e.message⟩, st)

/-- The bounded retry loop inside `attempt_dependency_recovery`:
`remaining` counts the iterations the `while` loop may still run, `attempts`
the `ensure` calls already made. -/
def attemptRecoveryLoop (env : RecoveryEnv) (ty : String) (i : Int) :
    Nat → Nat → Option String → RecoveryState → RecoveryOutcome × RecoveryState
  | 0, attempts, lastError, st => (⟨false, attempts, lastError⟩, st)
  | remaining + 1, attempts, _, st =>
    match ensure env st ty i with
    | (r, st1) =>
      if r.succeeded then (⟨true, attempts + 1, none⟩, st1)
      else attemptRecoveryLoop env ty i remaining (attempts + 1) r.error st

/-- `attempt_dependency_recovery`. -/
def attemptDependencyRecovery (env : RecoveryEnv) (st : RecoveryState) (ty : String)
    (i : Int) (maxAttempts : Nat) : RecoveryOutcome × RecoveryState :=
  attemptRecoveryLoop env ty i maxAttempts 0 none st

/-! ## Sample sync worker (samples.py)

The per-run dependency resolver is abstracted as an oracle
`EntityType → Int → RecoveryOutcome` giving, for each dependency the worker
asks `attempt_dependency_recovery` about, the outcome of that bounded
recovery loop; `none` models a worker run without a resolver handle. -/

abbrev ResolverOracle := Option (EntityType → Int → RecoveryOutcome)

/-- A sample list item, carrying the fields `sync_samples` branches on
(`item["id"]`, `item.get("order_id")`, and the already-parsed
`date_created`). -/
structure SampleItem where
  id : Int
  orderId : Option Int := none
  dateCreated : Option Int := none
deriving DecidableEq

/-- The per-run constants of the `sync_samples` item loop. -/
structure SampleConfig where
  fullRefresh : Bool
  lastId : Option Int
  startDt : Option Int
  endDt : Option Int
  windowMode : Bool
  resolver : ResolverOracle

/-- The mutable state the `sync_samples` item loop threads: the in-memory
`known_orders` set, the page-local `records_to_upsert`, the summary
counters, the ids the resolver recovered this run, and the running maxima. -/
structure SamplePageState where
  knownOrders : List Int
  records : List SampleItem := []
  processed : Nat := 0
  skippedOld : Nat := 0
  skippedMissingOrder : Nat := 0
  skippedUnknownOrder : Nat := 0
  dependenciesRecovered : Nat := 0
  skippedEntities : List SkippedEntity := []
  recoveredOrders : List Int := []
  maxSyncedAt : Option Int := none
  maxId : Option Int := none

/-- Appending one sample to the page batch, with the running-maximum
updates that follow it in the source. -/
def accumulateSample (st : SamplePageState) (item : SampleItem) : SamplePageState :=
  { st with
      records := st.records ++ [item],
      processed := st.processed + 1,
      maxSyncedAt := maxOptTime st.maxSyncedAt item.dateCreated,
      maxId := maxOptId st.maxId item.id }

/-- The body of `for item in samples:` in `sync_samples`, including the
`break` on an out-of-window item (the returned flag is `stop_after_page`).
Checks run in source order: staleness, missing `order_id`, unknown order
(with optional recovery), window stop, upper bound, accumulate. -/
def processSampleItems (cfg : SampleConfig) :
    SamplePageState → List SampleItem → SamplePageState × Bool
  | st, [] => (st, false)
  | st, item :: rest =>
    if isStale cfg.fullRefresh cfg.lastId item.id then
      processSampleItems cfg { st with skippedOld := st.skippedOld + 1 } rest
    else
      match truthyId item.orderId with
      | none =>
        processSampleItems cfg
          { st with
              skippedMissingOrder := st.skippedMissingOrder + 1,
              skippedEntities := st.skippedEntities ++
                [{ entityId := some item.id, reason := "missing_order_id" }] }
          rest
      | some oid =>
        let outcome : Option RecoveryOutcome :=
          if oid ∈ st.knownOrders then none
          else
            match cfg.resolver with
            | some f => some (f EntityType.orders oid)
            | none => none
        let st1 :=
          match outcome with
          | some oc =>
            if oc.succeeded then
              { st with
                  knownOrders := oid :: st.knownOrders,
                  recoveredOrders := oid :: st.recoveredOrders,
                  dependenciesRecovered := st.dependenciesRecovered + 1 }
            else st
          | none => st
        if oid ∈ st1.knownOrders then
          if cfg.windowMode && ltOpt item.dateCreated cfg.startDt then (st1, true)
          else if gtOpt item.dateCreated cfg.endDt then
            processSampleItems cfg st1 rest
          else
            processSampleItems cfg (accumulateSample st1 item) rest
        else
          processSampleItems cfg
            { st1 with
                skippedUnknownOrder := st1.skippedUnknownOrder + 1,
                skippedEntities := st1.skippedEntities ++
                  [{ entityId := some item.id, reason := "unknown_order",
                     depId := some oid,
                     recoveryAttempts :=
                       some (match outcome with | some oc => oc.attempts | none => 0),
                     recoveryError :=
                       match outcome with | some oc => oc.error | none => none }] }
            rest

/-! ## Checkpoint and persistence (samples.py `_persist_batch` and friends) -/

/-- A `SyncCheckpoint` row. -/
structure Checkpoint where
  lastCursor : Option Nat := none
  lastSyncedAt : Option Int := none
  lastId : Option Int := none
  status : String := "never"
  failed : Bool := false
  message : Option String := none
deriving DecidableEq

/-- Insert-or-update one row keyed by `id`. -/
def upsertOne (table : List SampleItem) (r : SampleItem) : List SampleItem :=
  if table.any fun x => x.id == r.id then
    table.map fun x => if x.id == r.id then r else x
  else table ++ [r]

/-- `ON CONFLICT (id) DO UPDATE` over a whole batch. -/
def upsertById (table : List SampleItem) : List SampleItem → List SampleItem
  | [] => table
  | r :: rs => upsertById (upsertOne table r) rs

/-- The samples table plus its checkpoint row, the state `_persist_batch`
and the checkpoint markers mutate transactionally. -/
structure SamplesStore where
  table : List SampleItem := []
  checkpoint : Checkpoint := {}
deriving DecidableEq

/-- `_persist_batch` of samples.py: always advance `last_cursor` and reset
status; upsert the rows and move `last_synced_at`/`last_id` only when the
batch is non-empty. -/
def persistBatchSamples (store : SamplesStore) (rows : List SampleItem)
    (currentPage : Nat) (maxSyncedAt maxId : Option Int) : SamplesStore :=
  let ck1 := { store.checkpoint with
                 lastCursor := some currentPage, status := "running",
                 failed := false, message := none }
  if rows.isEmpty then { store with checkpoint := ck1 }
  else
    { table := upsertById store.table rows,
      checkpoint := { ck1 with lastSyncedAt := maxSyncedAt, lastId := maxId } }

/-- `_mark_checkpoint_completed` of samples.py. -/
def markCheckpointCompletedSamples (store : SamplesStore) (currentPage : Nat)
    (maxSyncedAt maxId : Option Int) : SamplesStore :=
  { store with
      checkpoint := { store.checkpoint with
                        lastCursor := some currentPage,
                        lastSyncedAt := maxSyncedAt,
                        lastId := maxId,
                        status := "completed", failed := false, message := none } }

/-! ## The `sync_samples` page loop and full run -/

/-- One page of remote data: page `n` (1-based) of `pages`, empty beyond the
end, mirroring a list endpoint whose `total_pages` is `pages.length`. -/
def fetchSamplesPage (pages : List (List SampleItem)) (n : Nat) : List SampleItem :=
  pages.getD (n - 1) []

/-- Everything observable about one `sync_samples` run: the final store, the
page numbers requested from the client, a log of every `_persist_batch` call
(page, rows, whether `stop_after_page` was set on that page), and the sort
parameters sent with every list request. -/
structure SamplesRunTrace where
  store : SamplesStore
  state : SamplePageState
  finalPage : Nat
  requested : List Nat
  persistLog : List (Nat × List SampleItem × Bool)

/-- The `while True:` page loop of `sync_samples`.  `fuel` bounds the number
of iterations; every exit (empty page, `stop_after_page`, last page) returns
the loop state, and the run entry point supplies enough fuel for the loop
never to exhaust it. -/
def samplesSyncLoop (pages : List (List SampleItem)) (cfg : SampleConfig) :
    Nat → Nat → SamplePageState → SamplesStore → List Nat →
    List (Nat × List SampleItem × Bool) → SamplesRunTrace
  | 0, current, st, store, req, log => ⟨store, st, current, req, log⟩
  | fuel + 1, current, st, store, req, log =>
    let data := fetchSamplesPage pages current
    let req1 := req ++ [current]
    if data.isEmpty then ⟨store, st, current, req1, log⟩
    else
      let totalPages := pages.length
      let out := processSampleItems cfg { st with records := [] } data
      let st1 := out.1
      let stop := out.2
      let store1 := persistBatchSamples store st1.records current st1.maxSyncedAt st1.maxId
      let log1 := log ++ [(current, st1.records, stop)]
      if stop then ⟨store1, st1, current, req1, log1⟩
      else if totalPages ≠ 0 ∧ totalPages ≤ current then ⟨store1, st1, current, req1, log1⟩
      else samplesSyncLoop pages cfg fuel (current + 1) st1 store1 req1 log1

/-- The arguments of one `sync_samples` call, plus the remote data. -/
structure SamplesRunArgs where
  fullRefresh : Bool := false
  ignoreCheckpoint : Bool := false
  startDt : Option Int := none
  endDt : Option Int := none
  resolver : ResolverOracle := none
  pages : List (List SampleItem) := []

/-- `sync_samples` end to end on the success path: checkpoint read and
optional full-refresh reset, `ignore_checkpoint` handling, the page loop,
and the final `_mark_checkpoint_completed`.  `knownOrders` is the result of
`_load_order_ids`. -/
def syncSamplesRun (args : SamplesRunArgs) (db : SamplesStore)
    (knownOrders : List Int) : SamplesRunTrace × String × String :=
  let ck0 := db.checkpoint
  let ck1 := if args.fullRefresh then
      { ck0 with lastSyncedAt := none, lastId := none, lastCursor := some 1 }
    else ck0
  let startPage0 := match ck1.lastCursor with
    | some n => if n = 0 then 1 else n
    | none => 1
  let startPage := if args.ignoreCheckpoint then 1 else startPage0
  let lastSyncedAt := if args.ignoreCheckpoint then none else ck1.lastSyncedAt
  let lastId := if args.ignoreCheckpoint then none else ck1.lastId
  let ck2 := { ck1 with status := "running", failed := false, message := none }
  let store0 : SamplesStore := { db with checkpoint := ck2 }
  let windowMode := args.ignoreCheckpoint && args.startDt.isSome
  let cfg : SampleConfig :=
    ⟨args.fullRefresh, lastId, args.startDt, args.endDt, windowMode, args.resolver⟩
  let st0 : SamplePageState :=
    { knownOrders := knownOrders, maxSyncedAt := lastSyncedAt, maxId := lastId }
  let tr := samplesSyncLoop args.pages cfg (args.pages.length + 1) startPage st0 store0 [] []
  let storeDone :=
    markCheckpointCompletedSamples tr.store tr.finalPage tr.state.maxSyncedAt tr.state.maxId
  ({ tr with store := storeDone },
   (if windowMode then "date_created" else "id"),
   (if windowMode then "desc" else "asc"))

/-! ## Order sync worker (orders.py): the item loop -/

/-- An order list item, with the fields `sync_orders` branches on. -/
structure OrderItem where
  id : Int
  customerAccountId : Option Int := none
  dateCreated : Option Int := none
deriving DecidableEq

/-- The per-run constants of the `sync_orders` item loop (orders has no
`window_mode` flag: its start-bound check always applies). -/
structure OrderConfig where
  fullRefresh : Bool
  lastId : Option Int
  startDt : Option Int
  endDt : Option Int
  resolver : ResolverOracle

/-- The state threaded through the `sync_orders` item loop. -/
structure OrderPageState where
  knownCustomers : List Int
  records : List OrderItem := []
  processed : Nat := 0
  skippedOld : Nat := 0
  skippedMissingCustomer : Nat := 0
  skippedUnknownCustomer : Nat := 0
  dependenciesRecovered : Nat := 0
  skippedEntities : List SkippedEntity := []
  recoveredCustomers : List Int := []
  maxSyncedAt : Option Int := none
  maxId : Option Int := none

/-- Appending one order to the page batch. -/
def accumulateOrder (st : OrderPageState) (item : OrderItem) : OrderPageState :=
  { st with
      records := st.records ++ [item],
      processed := st.processed + 1,
      maxSyncedAt := maxOptTime st.maxSyncedAt item.dateCreated,
      maxId := maxOptId st.maxId item.id }

/-- The body of `for item in orders:` in `sync_orders`.  Unlike the other
workers, the customer-dependency checks come before the staleness check, and
an out-of-window item sets `stop_after_page` with `continue` (not `break`),
so the rest of the page is still examined. -/
def processOrderItems (cfg : OrderConfig) :
    OrderPageState → Bool → List OrderItem → OrderPageState × Bool
  | st, stop, [] => (st, stop)
  | st, stop, item :: rest =>
    match truthyId item.customerAccountId with
    | none =>
      processOrderItems cfg
        { st with
            skippedMissingCustomer := st.skippedMissingCustomer + 1,
            skippedEntities := st.skippedEntities ++
              [{ entityId := some item.id, reason := "missing_customer_account_id" }] }
        stop rest
    | some cid =>
      let outcome : Option RecoveryOutcome :=
        if cid ∈ st.knownCustomers then none
        else
          match cfg.resolver with
          | some f => some (f EntityType.customers cid)
          | none => none
      let st1 :=
        match outcome with
        | some oc =>
          if oc.succeeded then
            { st with
                knownCustomers := cid :: st.knownCustomers,
                recoveredCustomers := cid :: st.recoveredCustomers,
                dependenciesRecovered := st.dependenciesRecovered + 1 }
          else st
        | none => st
      if cid ∈ st1.knownCustomers then
        if isStale cfg.fullRefresh cfg.lastId item.id then
          processOrderItems cfg { st1 with skippedOld := st1.skippedOld + 1 } stop rest
        else if ltOpt item.dateCreated cfg.startDt then
          processOrderItems cfg { st1 with skippedOld := st1.skippedOld + 1 } true rest
        else if gtOpt item.dateCreated cfg.endDt then
          processOrderItems cfg st1 stop rest
        else
          processOrderItems cfg (accumulateOrder st1 item) stop rest
      else
        processOrderItems cfg
          { st1 with
              skippedUnknownCustomer := st1.skippedUnknownCustomer + 1,
              skippedEntities := st1.skippedEntities ++
                [{ entityId := some item.id, reason := "unknown_customer",
                   depId := some cid,
                   recoveryAttempts :=
                     some (match outcome with | some oc => oc.attempts | none => 0),
                   recoveryError :=
                     match outcome with | some oc => oc.error | none => none }] }
          stop rest

/-! ## Batch sync worker (batches.py): the item loop -/

/-- A batch list item, with the fields `sync_batches` branches on
(`sample_ids`/`test_ids` already through `ensure_int_list`). -/
structure BatchItem where
  id : Int
  sampleIds : List Int := []
  testIds : List Int := []
  dateCreated : Option Int := none
deriving DecidableEq

/-- The per-run constants of the `sync_batches` item loop. -/
structure BatchConfig where
  fullRefresh : Bool
  lastId : Option Int
  startDt : Option Int
  endDt : Option Int
  windowMode : Bool
  resolver : ResolverOracle

/-- The state threaded through the `sync_batches` item loop. -/
structure BatchPageState where
  knownSamples : List Int
  knownTests : List Int
  records : List BatchItem := []
  processed : Nat := 0
  skippedOld : Nat := 0
  skippedMissingDependency : Nat := 0
  dependenciesRecovered : Nat := 0
  skippedEntities : List SkippedEntity := []
  recoveredSamples : List Int := []
  recoveredTests : List Int := []
  maxSyncedAt : Option Int := none
  maxId : Option Int := none

/-- The inner `for sample_id in sample_ids:` (resp. tests) recovery loop of
`sync_batches`: recover each unknown id in turn, stopping at the first
failure. -/
structure BatchDepLoopOut where
  known : List Int
  recovered : List Int
  recoveredCount : Nat
  failure : Option (Int × RecoveryOutcome)

def recoverBatchDeps (f : EntityType → Int → RecoveryOutcome) (t : EntityType)
    (known : List Int) : List Int → BatchDepLoopOut
  | [] => ⟨known, [], 0, none⟩
  | sid :: rest =>
    if sid ∈ known then recoverBatchDeps f t known rest
    else
      let oc := f t sid
      if oc.succeeded then
        let out := recoverBatchDeps f t (sid :: known) rest
        ⟨out.known, sid :: out.recovered, out.recoveredCount + 1, out.failure⟩
      else ⟨known, [], 0, some (sid, oc)⟩

/-- Appending one batch to the page batch. -/
def accumulateBatch (st : BatchPageState) (item : BatchItem) : BatchPageState :=
  { st with
      records := st.records ++ [item],
      processed := st.processed + 1,
      maxSyncedAt := maxOptTime st.maxSyncedAt item.dateCreated,
      maxId := maxOptId st.maxId item.id }

/-- The body of `for item in batches:` in `sync_batches`.  Checks run in
source order: staleness, windowed stop (`break`), non-window start filter,
upper bound, then the dependency section — with a resolver the sample and
test id lists are recovered and a failure skips the item; without one both
id lists are merely added to the known sets and the batch is persisted
unchecked. -/
def processBatchItems (cfg : BatchConfig) :
    BatchPageState → List BatchItem → BatchPageState × Bool
  | st, [] => (st, false)
  | st, item :: rest =>
    if isStale cfg.fullRefresh cfg.lastId item.id then
      processBatchItems cfg { st with skippedOld := st.skippedOld + 1 } rest
    else if cfg.windowMode && ltOpt item.dateCreated cfg.startDt then (st, true)
    else if !cfg.windowMode && ltOpt item.dateCreated cfg.startDt then
      processBatchItems cfg { st with skippedOld := st.skippedOld + 1 } rest
    else if gtOpt item.dateCreated cfg.endDt then processBatchItems cfg st rest
    else
      match cfg.resolver with
      | some f =>
        let so := recoverBatchDeps f .samples st.knownSamples item.sampleIds
        let stS :=
          { st with
              knownSamples := so.known,
              recoveredSamples := so.recovered ++ st.recoveredSamples,
              dependenciesRecovered := st.dependenciesRecovered + so.recoveredCount }
        match so.failure with
        | some (sid, oc) =>
          processBatchItems cfg
            { stS with
                skippedMissingDependency := stS.skippedMissingDependency + 1,
                skippedEntities := stS.skippedEntities ++
                  [{ entityId := some item.id, reason := "unknown_sample",
                     depId := some sid,
                     recoveryAttempts := some oc.attempts,
                     recoveryError := oc.error }] }
            rest
        | none =>
          let to' := recoverBatchDeps f .tests stS.knownTests item.testIds
          let stT :=
            { stS with
                knownTests := to'.known,
                recoveredTests := to'.recovered ++ stS.recoveredTests,
                dependenciesRecovered := stS.dependenciesRecovered + to'.recoveredCount }
          match to'.failure with
          | some (tid, oc) =>
            processBatchItems cfg
              { stT with
                  skippedMissingDependency := stT.skippedMissingDependency + 1,
                  skippedEntities := stT.skippedEntities ++
                    [{ entityId := some item.id, reason := "unknown_test",
                       depId := some tid,
                       recoveryAttempts := some oc.attempts,
                       recoveryError := oc.error }] }
              rest
          | none => processBatchItems cfg (accumulateBatch stT item) rest
      | none =>
        let stU :=
          { st with
              knownSamples := item.sampleIds ++ st.knownSamples,
              knownTests := item.testIds ++ st.knownTests }
        processBatchItems cfg (accumulateBatch stU item) rest

/-! ## Test sync worker (tests.py): the item loop -/

/-- A test list item, carrying the fields `sync_tests` branches on;
`detailBadRequest` records whether the `_ensure_required_fields` detail
fetch for this item answers 400 BAD REQUEST (the enrichment merge itself
does not affect any field the loop branches on, so the record persisted for
a surviving item is the item). -/
structure TestItem where
  id : Int
  sampleId : Option Int := none
  dateCreated : Option Int := none
  detailBadRequest : Bool := false
deriving DecidableEq

/-- The per-run constants of the `sync_tests` item loop. -/
structure TestConfig where
  fullRefresh : Bool
  lastId : Option Int
  startDt : Option Int
  endDt : Option Int
  windowMode : Bool
  resolver : ResolverOracle

/-- The state threaded through the `sync_tests` item loop. -/
structure TestPageState where
  knownSamples : List Int
  records : List TestItem := []
  processed : Nat := 0
  skippedOld : Nat := 0
  skippedMissingSample : Nat := 0
  skippedUnknownSample : Nat := 0
  detailBadRequestFailures : Nat := 0
  dependenciesRecovered : Nat := 0
  skippedEntities : List SkippedEntity := []
  recoveredSamples : List Int := []
  maxSyncedAt : Option Int := none
  maxId : Option Int := none

/-- Appending one test to the page batch. -/
def accumulateTest (st : TestPageState) (item : TestItem) : TestPageState :=
  { st with
      records := st.records ++ [item],
      processed := st.processed + 1,
      maxSyncedAt := maxOptTime st.maxSyncedAt item.dateCreated,
      maxId := maxOptId st.maxId item.id }

/-- The body of `for item in tests:` in `sync_tests`.  Checks run in source
order: staleness, missing `sample_id`, unknown sample (with optional
recovery), window stop (`break`), upper bound, detail-fetch 400 skip,
accumulate. -/
def processTestItems (cfg : TestConfig) :
    TestPageState → List TestItem → TestPageState × Bool
  | st, [] => (st, false)
  | st, item :: rest =>
    if isStale cfg.fullRefresh cfg.lastId item.id then
      processTestItems cfg { st with skippedOld := st.skippedOld + 1 } rest
    else
      match truthyId item.sampleId with
      | none =>
        processTestItems cfg
          { st with
              skippedMissingSample := st.skippedMissingSample + 1,
              skippedEntities := st.skippedEntities ++
                [{ entityId := some item.id, reason := "missing_sample_id" }] }
          rest
      | some sid =>
        let outcome : Option RecoveryOutcome :=
          if sid ∈ st.knownSamples then none
          else
            match cfg.resolver with
            | some f => some (f EntityType.samples sid)
            | none => none
        let st1 :=
          match outcome with
          | some oc =>
            if oc.succeeded then
              { st with
                  knownSamples := sid :: st.knownSamples,
                  recoveredSamples := sid :: st.recoveredSamples,
                  dependenciesRecovered := st.dependenciesRecovered + 1 }
            else st
          | none => st
        if sid ∈ st1.knownSamples then
          if cfg.windowMode && ltOpt item.dateCreated cfg.startDt then (st1, true)
          else if gtOpt item.dateCreated cfg.endDt then
            processTestItems cfg st1 rest
          else if item.detailBadRequest then
            processTestItems cfg
              { st1 with
                  detailBadRequestFailures := st1.detailBadRequestFailures + 1,
                  skippedEntities := st1.skippedEntities ++
                    [{ entityId := some item.id, reason := "detail_bad_request" }] }
              rest
          else
            processTestItems cfg (accumulateTest st1 item) rest
        else
          processTestItems cfg
            { st1 with
                skippedUnknownSample := st1.skippedUnknownSample + 1,
                skippedEntities := st1.skippedEntities ++
                  [{ entityId := some item.id, reason := "unknown_sample",
                     depId := some sid,
                     recoveryAttempts :=
                       some (match outcome with | some oc => oc.attempts | none => 0),
                     recoveryError :=
                       match outcome with | some oc => oc.error | none => none }] }
            rest

/-! ## Customer persistence (customers.py `_persist_batch`) -/

/-- A customer record as `sync_customers` builds it. -/
structure CustomerItem where
  id : Int
  name : String := ""
  dateCreated : Option Int := none
deriving DecidableEq

def upsertOneCustomer (table : List CustomerItem) (r : CustomerItem) :
    List CustomerItem :=
  if table.any fun x => x.id == r.id then
    table.map fun x => if x.id == r.id then r else x
  else table ++ [r]

def upsertCustomersById (table : List CustomerItem) :
    List CustomerItem → List CustomerItem
  | [] => table
  | r :: rs => upsertCustomersById (upsertOneCustomer table r) rs

/-- The customers table plus its checkpoint row. -/
structure CustomersStore where
  table : List CustomerItem := []
  checkpoint : Checkpoint := {}
deriving DecidableEq

/-- `_persist_batch` of customers.py: identical checkpoint discipline to the
samples version. -/
def persistBatchCustomers (store : CustomersStore) (rows : List CustomerItem)
    (currentPage : Nat) (maxSyncedAt maxId : Option Int) : CustomersStore :=
  let ck1 := { store.checkpoint with
                 lastCursor := some currentPage, status := "running",
                 failed := false, message := none }
  if rows.isEmpty then { store with checkpoint := ck1 }
  else
    { table := upsertCustomersById store.table rows,
      checkpoint := { ck1 with lastSyncedAt := maxSyncedAt, lastId := maxId } }

/-! ## Pipeline orchestrator (pipeline.py) -/

/-- `EntitySyncResult`, with the per-entity summary abstracted to `α`. -/
structure EntitySyncResultM (α : Type) where
  entity : String
  succeeded : Bool
  summary : Option α
  errorMessage : Option String
deriving DecidableEq

/-- `SyncRunSummary` (timing fields omitted). -/
structure SyncRunSummaryM (α : Type) where
  succeeded : Bool
  results : List (EntitySyncResultM α)
  failedEntity : Option String
  errorMessage : Option String
deriving DecidableEq

/-- `DEFAULT_SYNC_SEQUENCE`. -/
def DEFAULT_SYNC_SEQUENCE : List String :=
  ["customers", "orders", "samples", "batches", "tests"]

/-- The `for entity in sequence:` loop of `sync_all_entities`: each handler
call either returns a summary or raises; the first raise appends a failed
result and breaks. -/
def runEntitySequence {α : Type} (handler : String → Except String α) :
    List String → List (EntitySyncResultM α) × Option (String × String)
  | [] => ([], none)
  | e :: rest =>
    match handler e with
    | .ok s =>
      let out := runEntitySequence handler rest
      (⟨e, true, some s, none⟩ :: out.1, out.2)
    | .error msg => ([⟨e, false, none, some msg⟩], some (e, msg))

/-- `sync_all_entities` over stub workers: build the summary, and depending
on `raise_on_error` either raise `SyncOrchestrationError` (modelled as the
`.error` carrying the failing entity and message) or return the summary. -/
def syncAllEntities {α : Type} (handler : String → Except String α)
    (sequence : List String) (raiseOnError : Bool) :
    Except (String × String) (SyncRunSummaryM α) :=
  let out := runEntitySequence handler sequence
  let results := out.1
  let failure := out.2
  let succeeded := failure.isNone && results.length == sequence.length
  let summary : SyncRunSummaryM α :=
    ⟨succeeded, results, failure.map Prod.fst, failure.map Prod.snd⟩
  match failure with
  | some (ent, msg) => if raiseOnError then .error (ent, msg) else .ok summary
  | none => .ok summary

/-! ## Spec-side predicates and concrete scenarios -/

/-- Position of an entity kind in the dependency hierarchy: the extracted
dependency of a kind always has a strictly smaller rank. -/
def rank : EntityType → Nat
  | .customers => 0
  | .orders => 1
  | .samples => 2
  | .tests => 3
  | .batches => 4

/-- The resolver oracle reported a successful recovery of `(t, o)`. -/
def recoveredByResolver (resolver : ResolverOracle) (t : EntityType) (o : Int) : Prop :=
  ∃ f, resolver = some f ∧ (f t o).succeeded = true

/-- Every record in a sample page batch references an order that was known
before the run (`base`) or was successfully recovered during it. -/
def sampleDepsJustified (base : List Int) (resolver : ResolverOracle)
    (out : SamplePageState) : Prop :=
  ∀ r ∈ out.records, ∃ o, truthyId r.orderId = some o ∧
    (o ∈ base ∨ (o ∈ out.recoveredOrders ∧ recoveredByResolver resolver .orders o))

/-- Every record in an order page batch references a customer that was known
before the run or was successfully recovered during it. -/
def orderDepsJustified (base : List Int) (resolver : ResolverOracle)
    (out : OrderPageState) : Prop :=
  ∀ r ∈ out.records, ∃ c, truthyId r.customerAccountId = some c ∧
    (c ∈ base ∨ (c ∈ out.recoveredCustomers ∧ recoveredByResolver resolver .customers c))

/-- Every record in a batch page batch references only samples and tests
that were known before the run or were successfully recovered during it. -/
def batchDepsJustified (baseS baseT : List Int) (resolver : ResolverOracle)
    (out : BatchPageState) : Prop :=
  ∀ r ∈ out.records,
    (∀ sid ∈ r.sampleIds,
       sid ∈ baseS ∨ (sid ∈ out.recoveredSamples ∧ recoveredByResolver resolver .samples sid)) ∧
    (∀ tid ∈ r.testIds,
       tid ∈ baseT ∨ (tid ∈ out.recoveredTests ∧ recoveredByResolver resolver .tests tid))

/-- The inductive invariant of the sample item loop: every accumulated
record's order is in the known set, the known set only extends `base` by
recovered ids, and every recovered id was reported recovered by the
resolver. -/
def sampleInv (cfg : SampleConfig) (base : List Int) (st : SamplePageState) : Prop :=
  (∀ r ∈ st.records, ∃ o, truthyId r.orderId = some o ∧ o ∈ st.knownOrders) ∧
  (∀ o ∈ st.knownOrders, o ∈ base ∨ o ∈ st.recoveredOrders) ∧
  (∀ o ∈ st.recoveredOrders, recoveredByResolver cfg.resolver .orders o)

/-- The inductive invariant of the order item loop. -/
def orderInv (cfg : OrderConfig) (base : List Int) (st : OrderPageState) : Prop :=
  (∀ r ∈ st.records, ∃ c, truthyId r.customerAccountId = some c ∧ c ∈ st.knownCustomers) ∧
  (∀ c ∈ st.knownCustomers, c ∈ base ∨ c ∈ st.recoveredCustomers) ∧
  (∀ c ∈ st.recoveredCustomers, recoveredByResolver cfg.resolver .customers c)

/-- Every record in a test page batch references a sample that was known
before the run or was successfully recovered during it. -/
def testDepsJustified (base : List Int) (resolver : ResolverOracle)
    (out : TestPageState) : Prop :=
  ∀ r ∈ out.records, ∃ s, truthyId r.sampleId = some s ∧
    (s ∈ base ∨ (s ∈ out.recoveredSamples ∧ recoveredByResolver resolver .samples s))

/-- The inductive invariant of the test item loop. -/
def testInv (cfg : TestConfig) (base : List Int) (st : TestPageState) : Prop :=
  (∀ r ∈ st.records, ∃ s, truthyId r.sampleId = some s ∧ s ∈ st.knownSamples) ∧
  (∀ s ∈ st.knownSamples, s ∈ base ∨ s ∈ st.recoveredSamples) ∧
  (∀ s ∈ st.recoveredSamples, recoveredByResolver cfg.resolver .samples s)

/-- The inductive invariant of the batch item loop, for a run with resolver
oracle `f`. -/
def batchInv (f : EntityType → Int → RecoveryOutcome) (baseS baseT : List Int)
    (st : BatchPageState) : Prop :=
  (∀ r ∈ st.records,
     (∀ sid ∈ r.sampleIds, sid ∈ st.knownSamples) ∧
     (∀ tid ∈ r.testIds, tid ∈ st.knownTests)) ∧
  (∀ x ∈ st.knownSamples, x ∈ baseS ∨ x ∈ st.recoveredSamples) ∧
  (∀ x ∈ st.recoveredSamples, (f .samples x).succeeded = true) ∧
  (∀ x ∈ st.knownTests, x ∈ baseT ∨ x ∈ st.recoveredTests) ∧
  (∀ x ∈ st.recoveredTests, (f .tests x).succeeded = true)

/-- C1 witness resolver: reports every asked-about dependency recovered on
the first attempt. -/
def c1wResolver : EntityType → Int → RecoveryOutcome := fun _ _ => ⟨true, 1, none⟩

def c1wCfg : BatchConfig :=
  { fullRefresh := false, lastId := none, startDt := none, endDt := none,
    windowMode := false, resolver := some c1wResolver }

def c1wBatch : BatchItem := { id := 2, sampleIds := [5, 6] }

/-- C1 witness drop-and-record input: a fresh (non-stale) sample
referencing the unknown order 88, synced with no resolver handle. -/
def c1sItem : SampleItem := { id := 4, orderId := some 88 }

def c1sCfg : SampleConfig :=
  { fullRefresh := false, lastId := none, startDt := none, endDt := none,
    windowMode := false, resolver := none }

def c1sSt : SamplePageState := { knownOrders := [] }

/-- C1 counterexample input: a batch referencing sample 99, synced with no
resolver handle against a store with no samples at all. -/
def c1Batch : BatchItem := { id := 1, sampleIds := [99] }

def c1Cfg : BatchConfig :=
  { fullRefresh := false, lastId := none, startDt := none, endDt := none,
    windowMode := false, resolver := none }

def c1St : BatchPageState := { knownSamples := [], knownTests := [] }

/-- C2 counterexample input: a windowed (`ignore_checkpoint`) run over one
page holding a single in-window sample with id 3, against a checkpoint whose
stored watermark is 5. -/
def c2Args : SamplesRunArgs :=
  { ignoreCheckpoint := true, startDt := some 0,
    pages := [[{ id := 3, orderId := some 1, dateCreated := some 10 }]] }

def c2Db : SamplesStore :=
  { checkpoint := { lastCursor := some 1, lastSyncedAt := some 100,
                    lastId := some 5, status := "completed" } }

/-- C2 witness input: a normal incremental run over one page with sample 7. -/
def c2wArgs : SamplesRunArgs :=
  { pages := [[{ id := 7, orderId := some 1, dateCreated := some 10 }]] }

def c2wDb : SamplesStore :=
  { checkpoint := { lastCursor := some 1, lastId := some 5, status := "completed" } }

/-- C3 counterexample input: an order that is both stale (id 3 ≤ stored
last_id 10) and references unknown customer 77, with no resolver. -/
def c3Item : OrderItem := { id := 3, customerAccountId := some 77 }

def c3Cfg : OrderConfig :=
  { fullRefresh := false, lastId := some 10, startDt := none, endDt := none,
    resolver := none }

def c3St : OrderPageState := { knownCustomers := [] }

/-- C3/samples witness input: a sample that is both stale (id 3 ≤ stored
last_id 10) and references unknown order 77, with no resolver. -/
def c3sItem : SampleItem := { id := 3, orderId := some 77 }

def c3sCfg : SampleConfig :=
  { fullRefresh := false, lastId := some 10, startDt := none, endDt := none,
    windowMode := false, resolver := none }

def c3sSt : SamplePageState := { knownOrders := [] }

/-- C4 counterexample input: payloads whose raw references form a cycle —
sample 1 references order 1, and order 1's raw payload references sample 1
back — while order 1's extracted dependency is customer 7. -/
def c4Env : RecoveryEnv :=
  ⟨[((EntityType.samples, 1),
     { depId := some 1, rawRefs := [(EntityType.orders, 1)] }),
    ((EntityType.orders, 1),
     { depId := some 7, rawRefs := [(EntityType.samples, 1)] }),
    ((EntityType.customers, 7), { depId := none, rawRefs := [] })]⟩

/-- C5 witness input: stub workers where exactly the samples worker raises. -/
def c5Handler : String → Except String Nat :=
  fun s => if s = "samples" then .error "boom" else .ok 0

/-- C6 witness input: a server that answers 429 with `Retry-After: 1` twice,
then 200. -/
def twoBusyThenOk : Nat → HttpResponse :=
  fun n => if n < 2 then { status := 429, retryAfter := some (some 1) } else { status := 200 }

/-- C6 fallback-backoff input: a 429 with a parsable `Retry-After: 7`, then a
429 with no header (so the exponential fallback delay applies), then 200. -/
def busyMixedThenOk : Nat → HttpResponse :=
  fun n =>
    if n = 0 then { status := 429, retryAfter := some (some 7) }
    else if n = 1 then { status := 429 }
    else { status := 200 }

/-- C6 bounded-retry input: a server that always answers 429. -/
def alwaysBusy : Nat → HttpResponse := fun _ => { status := 429 }

/-- C8 scenario: three pages sorted descending by creation time; the second
item of page 2 (id 7, created 50) falls before the window start 100. -/
def c8Pages : List (List SampleItem) :=
  [[{ id := 10, orderId := some 1, dateCreated := some 200 },
    { id := 9, orderId := some 1, dateCreated := some 190 }],
   [{ id := 8, orderId := some 1, dateCreated := some 150 },
    { id := 7, orderId := some 1, dateCreated := some 50 }],
   [{ id := 6, orderId := some 1, dateCreated := some 40 }]]

def c8Args : SamplesRunArgs :=
  { ignoreCheckpoint := true, startDt := some 100, pages := c8Pages }

/-- The page-2 rows the C8 scenario persists before stopping. -/
def c8StopRows : List SampleItem := [{ id := 8, orderId := some 1, dateCreated := some 150 }]

/-- C9 witness environment: an empty remote system and an empty local store. -/
def c9Env : RecoveryEnv := ⟨[]⟩

def c9St : RecoveryState := ⟨[]⟩

/-! ## Theorems -/

/-- C7: before issuing an API request the client re-authenticates if and
only if the current time has reached the tracked token expiry minus the
fixed 60-second margin; with `expires_in = 120` a request 70 seconds after
issuance triggers exactly one re-authentication (the immediate follow-up
check does not re-authenticate again), and a request 50 seconds after
issuance triggers none. -/
theorem token_refresh_margin :
    (∀ (ts : TokenState) (now exp : ℚ) (nei : Option ℚ), ts.expiresAt = some exp →
       ((ensureTokenValid ts now nei).1 = true ↔ exp - TOKEN_REFRESH_MARGIN ≤ now)) ∧
    calculateTokenExpiry 0 (some 120) = 120 ∧
    (ensureTokenValid ⟨some (calculateTokenExpiry 0 (some 120))⟩ 70 (some 120)).1 = true ∧
    (ensureTokenValid ⟨some (calculateTokenExpiry 0 (some 120))⟩ 50 (some 120)).1 = false ∧
    (ensureTokenValid
        (ensureTokenValid ⟨some (calculateTokenExpiry 0 (some 120))⟩ 70 (some 120)).2
        70 (some 120)).1 = false := by
  refine ⟨?_, ?_, ?_, ?_, ?_⟩
  · intro ts now exp nei h
    simp only [ensureTokenValid, h]
    split
    · next hlt =>
      simp only [Bool.false_eq_true, false_iff, not_le]
      linarith
    · next hge =>
      simp only [true_iff]
      linarith [not_lt.mp hge]
  · norm_num [calculateTokenExpiry, DEFAULT_TOKEN_LIFETIME]
  · norm_num [ensureTokenValid, calculateTokenExpiry, TOKEN_REFRESH_MARGIN,
      DEFAULT_TOKEN_LIFETIME]
  · norm_num [ensureTokenValid, calculateTokenExpiry, TOKEN_REFRESH_MARGIN,
      DEFAULT_TOKEN_LIFETIME]
  · norm_num [ensureTokenValid, calculateTokenExpiry, TOKEN_REFRESH_MARGIN,
      DEFAULT_TOKEN_LIFETIME]

/-- Witness for the hypothesised part of the C7 theorem, at a token expiring
at 120 and a request at time 70. -/
theorem token_refresh_margin_witness :
    (ensureTokenValid ⟨some 120⟩ 70 (some 120)).1 = true :=
  (token_refresh_margin.1 ⟨some 120⟩ 70 120 (some 120) rfl).mpr
    (by norm_num [TOKEN_REFRESH_MARGIN])

/-- C10: persisting an empty page batch still updates the checkpoint's
cursor and status but leaves `last_id`, `last_synced_at` and the entity
table untouched; a non-empty batch moves `last_id`/`last_synced_at` and
upserts the rows in the same transaction — for both the samples and the
customers `_persist_batch`. -/
theorem persist_empty_batch_frame :
    (∀ (s : SamplesStore) (page : Nat) (maxS maxI : Option Int),
       (persistBatchSamples s [] page maxS maxI).table = s.table ∧
       (persistBatchSamples s [] page maxS maxI).checkpoint.lastId = s.checkpoint.lastId ∧
       (persistBatchSamples s [] page maxS maxI).checkpoint.lastSyncedAt
         = s.checkpoint.lastSyncedAt ∧
       (persistBatchSamples s [] page maxS maxI).checkpoint.lastCursor = some page ∧
       (persistBatchSamples s [] page maxS maxI).checkpoint.status = "running") ∧
    (∀ (s : SamplesStore) (rows : List SampleItem) (page : Nat) (maxS maxI : Option Int),
       rows ≠ [] →
       (persistBatchSamples s rows page maxS maxI).checkpoint.lastId = maxI ∧
       (persistBatchSamples s rows page maxS maxI).checkpoint.lastSyncedAt = maxS ∧
       (persistBatchSamples s rows page maxS maxI).table = upsertById s.table rows) ∧
    (∀ (s : CustomersStore) (page : Nat) (maxS maxI : Option Int),
       (persistBatchCustomers s [] page maxS maxI).table = s.table ∧
       (persistBatchCustomers s [] page maxS maxI).checkpoint.lastId = s.checkpoint.lastId ∧
       (persistBatchCustomers s [] page maxS maxI).checkpoint.lastSyncedAt
         = s.checkpoint.lastSyncedAt ∧
       (persistBatchCustomers s [] page maxS maxI).checkpoint.lastCursor = some page ∧
       (persistBatchCustomers s [] page maxS maxI).checkpoint.status = "running") ∧
    (∀ (s : CustomersStore) (rows : List CustomerItem) (page : Nat) (maxS maxI : Option Int),
       rows ≠ [] →
       (persistBatchCustomers s rows page maxS maxI).checkpoint.lastId = maxI ∧
       (persistBatchCustomers s rows page maxS maxI).checkpoint.lastSyncedAt = maxS ∧
       (persistBatchCustomers s rows page maxS maxI).table
         = upsertCustomersById s.table rows) := by
  refine ⟨?_, ?_, ?_, ?_⟩
  · intro s page maxS maxI
    simp [persistBatchSamples]
  · intro s rows page maxS maxI h
    cases rows with
    | nil => exact absurd rfl h
    | cons r rs => simp [persistBatchSamples]
  · intro s page maxS maxI
    simp [persistBatchCustomers]
  · intro s rows page maxS maxI h
    cases rows with
    | nil => exact absurd rfl h
    | cons r rs => simp [persistBatchCustomers]

/-- Witness for the hypothesised parts of the C10 theorem, on a singleton
batch. -/
theorem persist_empty_batch_frame_witness :
    (persistBatchSamples {} [{ id := 1 }] 4 (some 9) (some 1)).checkpoint.lastId = some 1 ∧
    (persistBatchCustomers {} [{ id := 2 }] 4 (some 9) (some 2)).checkpoint.lastId = some 2 :=
  ⟨(persist_empty_batch_frame.2.1 {} [{ id := 1 }] 4 (some 9) (some 1) (by simp)).1,
   (persist_empty_batch_frame.2.2.2 {} [{ id := 2 }] 4 (some 9) (some 2) (by simp)).1⟩

/-- C9: `EntityRecoveryService.ensure` always returns an `EnsureResult`:
an unrecognised entity type yields a failure carrying
`unsupported_entity:<type>`, and every internal `RecoveryError` is caught
and converted into a failure carrying that error's message, the state left
as it was. -/
theorem ensure_total_classified :
    ∀ (env : RecoveryEnv) (st : RecoveryState) (ty : String) (i : Int),
      (ENTITY_ALIASES ty = none →
         ensure env st ty i = (⟨false, some ("unsupported_entity:" ++ ty)⟩, st)) ∧
      (∀ t, ENTITY_ALIASES ty = some t →
         (∃ st1, recover env st t i ∅ = .ok st1 ∧ ensure env st ty i = (⟨true, none⟩, st1)) ∨
         (∃ e, recover env st t i ∅ = .error e ∧
            ensure env st ty i = (⟨false, some e.message⟩, st))) := by
  intro env st ty i
  constructor
  · intro h
    simp [ensure, h]
  · intro t ht
    cases hrec : recover env st t i ∅ with
    | ok st1 =>
      left
      exact ⟨st1, rfl, by simp [ensure, ht, hrec]⟩
    | error e =>
      right
      exact ⟨e, rfl, by simp [ensure, ht, hrec]⟩

/-- Witness for the C9 theorem at the unrecognised entity type
`"widgets"`. -/
theorem ensure_total_classified_witness :
    ensure c9Env c9St "widgets" 5
      = (⟨false, some "unsupported_entity:widgets"⟩, c9St) :=
  (ensure_total_classified c9Env c9St "widgets" 5).1 (by decide)

/-- The entity loop on a sequence whose prefix succeeds and whose next
element raises: the successful results are kept, the failing entity closes
the list, and nothing after it runs. -/
theorem runEntitySequence_fail {α : Type} (handler : String → Except String α)
    (e msg : String) :
    ∀ (pre post : List String), (∀ x ∈ pre, ∃ u, handler x = .ok u) →
      handler e = .error msg →
      runEntitySequence handler (pre ++ e :: post) =
        (pre.map (fun x => ⟨x, true, (handler x).toOption, none⟩) ++
           [⟨e, false, none, some msg⟩],
         some (e, msg)) := by
  intro pre
  induction pre with
  | nil =>
    intro post _ hfail
    simp [runEntitySequence, hfail]
  | cons x xs ih =>
    intro post hpre hfail
    obtain ⟨u, hu⟩ := hpre x (List.mem_cons_self x xs)
    have hrest := ih post (fun y hy => hpre y (List.mem_cons_of_mem x hy)) hfail
    simp [runEntitySequence, hu, hrest, Except.toOption]

/-- C5: when a worker raises, the orchestrator stops the sequence, keeps the
results of the entities that already completed, records the failing entity
and message, and either raises the wrapping orchestration error or returns a
summary with `succeeded = false` according to `raise_on_error`; with stub
workers where `"samples"` raises, customers and orders complete, batches and
tests never run, and `failed_entity` is `"samples"`. -/
theorem orchestrator_halts_on_failure :
    (∀ (α : Type) (handler : String → Except String α) (pre post : List String)
       (e msg : String) (raiseOnError : Bool),
       (∀ x ∈ pre, ∃ u, handler x = .ok u) → handler e = .error msg →
       (raiseOnError = true →
          syncAllEntities handler (pre ++ e :: post) raiseOnError = .error (e, msg)) ∧
       (raiseOnError = false →
          syncAllEntities handler (pre ++ e :: post) raiseOnError =
            .ok ⟨false,
                 pre.map (fun x => ⟨x, true, (handler x).toOption, none⟩) ++
                   [⟨e, false, none, some msg⟩],
                 some e, some msg⟩)) ∧
    syncAllEntities c5Handler DEFAULT_SYNC_SEQUENCE false =
      .ok ⟨false,
           [⟨"customers", true, some 0, none⟩, ⟨"orders", true, some 0, none⟩,
            ⟨"samples", false, none, some "boom"⟩],
           some "samples", some "boom"⟩ := by
  constructor
  · intro α handler pre post e msg raiseOnError hpre hfail
    have hrun := runEntitySequence_fail handler e msg pre post hpre hfail
    constructor
    · intro hro
      simp [syncAllEntities, hrun, hro]
    · intro hro
      simp [syncAllEntities, hrun, hro]
  · rfl

/-- Witness for the hypothesised part of the C5 theorem: the same stub
workers with `raise_on_error = true` raise the wrapping error naming
`"samples"`. -/
theorem orchestrator_halts_on_failure_witness :
    syncAllEntities c5Handler DEFAULT_SYNC_SEQUENCE true = .error ("samples", "boom") :=
  (orchestrator_halts_on_failure.1 Nat c5Handler ["customers", "orders"]
      ["batches", "tests"] "samples" "boom" true
      (by
        intro x hx
        simp only [List.mem_cons, List.not_mem_nil, or_false] at hx
        rcases hx with rfl | rfl
        · exact ⟨0, rfl⟩
        · exact ⟨0, rfl⟩)
      rfl).1 rfl

/-- When every response is a 429, the retry loop keeps retrying until the
attempt counter passes the bound and then returns the failing 429 response,
having issued exactly `maxRetries + 1 - attempt` further calls. -/
theorem requestLoop_all429 (responses : Nat → HttpResponse) (M : Nat) (bf : ℚ)
    (h : ∀ n, (responses n).status = 429) :
    ∀ (d attempt reauth : Nat) (delay : ℚ) (calls : Nat) (sleeps : List ℚ),
      M - attempt = d → attempt ≤ M →
      (requestLoop responses M bf attempt reauth delay calls sleeps).response.status = 429 ∧
      (requestLoop responses M bf attempt reauth delay calls sleeps).calls
        = calls + (M + 1 - attempt) := by
  intro d
  induction d with
  | zero =>
    intro attempt reauth delay calls sleeps hd ha
    have haM : attempt = M := by omega
    subst haM
    rw [requestLoop]
    simp only [h]
    norm_num
    exact h calls
  | succ k ih =>
    intro attempt reauth delay calls sleeps hd ha
    have hlt : attempt < M := by omega
    rw [requestLoop]
    simp only [h]
    norm_num
    rw [if_neg (by omega : ¬ M < attempt + 1)]
    have hrec := ih (attempt + 1) reauth (delay * bf) (calls + 1)
      (sleeps ++ [match (responses calls).retryAfter with
        | some (some q) => q
        | _ => delay]) (by omega) (by omega)
    refine ⟨hrec.1, ?_⟩
    rw [hrec.2]
    omega

/-- C6: on 429 the client sleeps for the `Retry-After` duration when the
header parses (falling back to the exponential backoff delay otherwise) and
retries up to the bounded attempt count, after which it returns the failing
429 response; against a server answering 429 twice with `Retry-After: 1` and
then 200, exactly 3 HTTP calls are issued and the request succeeds. -/
theorem rate_limited_retry_bounded :
    (∀ (responses : Nat → HttpResponse) (M : Nat) (bf : ℚ) (attempt reauth : Nat)
       (delay : ℚ) (calls : Nat) (sleeps : List ℚ),
       (∀ n, (responses n).status = 429) → attempt ≤ M →
       (requestLoop responses M bf attempt reauth delay calls sleeps).response.status = 429 ∧
       (requestLoop responses M bf attempt reauth delay calls sleeps).calls
         = calls + (M + 1 - attempt)) ∧
    sendRequest twoBusyThenOk = ⟨{ status := 200 }, 3, [1, 1], 0⟩ ∧
    sendRequest busyMixedThenOk = ⟨{ status := 200 }, 3, [7, 2], 0⟩ ∧
    (∀ responses, (∀ n, (responses n).status = 429) →
       (sendRequest responses).response.status = 429 ∧
       (sendRequest responses).calls = 6) := by
  refine ⟨?_, ?_, ?_, ?_⟩
  · intro responses M bf attempt reauth delay calls sleeps h ha
    exact requestLoop_all429 responses M bf h (M - attempt) attempt reauth delay calls
      sleeps rfl ha
  · rw [sendRequest]
    rw [requestLoop]
    norm_num [twoBusyThenOk]
    rw [requestLoop]
    norm_num [twoBusyThenOk]
    rw [requestLoop]
    norm_num [twoBusyThenOk]
  · rw [sendRequest]
    rw [requestLoop]
    norm_num [busyMixedThenOk]
    rw [requestLoop]
    norm_num [busyMixedThenOk]
    rw [requestLoop]
    norm_num [busyMixedThenOk]
  · intro responses h
    have := requestLoop_all429 responses 5 2 h 5 0 0 1 0 [] rfl (by omega)
    exact ⟨this.1, this.2⟩

/-- Witness for the hypothesised parts of the C6 theorem, against a server
that always rate-limits: the client gives up after 6 calls with the 429. -/
theorem rate_limited_retry_bounded_witness :
    (sendRequest alwaysBusy).response.status = 429 ∧
    (sendRequest alwaysBusy).calls = 6 :=
  rate_limited_retry_bounded.2.2.2 alwaysBusy (fun _ => rfl)

/-- C3 (corrected): the sample worker evaluates staleness before the
dependency check, so an item to which both skip conditions apply is counted
as skipped-stale; the order worker evaluates the customer-dependency check
first, so the same dual-condition item is recorded as
skipped-unknown-customer instead. -/
theorem skip_precedence_amended :
    (∀ (cfg : SampleConfig) (st : SamplePageState) (item : SampleItem)
       (rest : List SampleItem),
       isStale cfg.fullRefresh cfg.lastId item.id = true →
       processSampleItems cfg st (item :: rest) =
         processSampleItems cfg { st with skippedOld := st.skippedOld + 1 } rest) ∧
    (∀ (cfg : OrderConfig) (st : OrderPageState) (stop : Bool) (item : OrderItem)
       (rest : List OrderItem) (cid : Int),
       truthyId item.customerAccountId = some cid →
       cid ∉ st.knownCustomers →
       (match cfg.resolver with
        | some f => (f EntityType.customers cid).succeeded
        | none => false) = false →
       isStale cfg.fullRefresh cfg.lastId item.id = true →
       processOrderItems cfg st stop (item :: rest) =
         processOrderItems cfg
           { st with
               skippedUnknownCustomer := st.skippedUnknownCustomer + 1,
               skippedEntities := st.skippedEntities ++
                 [{ entityId := some item.id, reason := "unknown_customer",
                    depId := some cid,
                    recoveryAttempts := some (match cfg.resolver with
                      | some f => (f EntityType.customers cid).attempts
                      | none => 0),
                    recoveryError := match cfg.resolver with
                      | some f => (f EntityType.customers cid).error
                      | none => none }] }
           stop rest) := by
  constructor
  · intro cfg st item rest hstale
    rw [processSampleItems, if_pos hstale]
  · intro cfg st stop item rest cid htruthy hmem hfail hstale
    rw [processOrderItems]
    cases hres : cfg.resolver with
    | none =>
      simp only [htruthy, hres, hmem]
      simp [hmem]
    | some f =>
      rw [hres] at hfail
      have hfail2 : (f EntityType.customers cid).succeeded = false := hfail
      simp only [htruthy, hres, hmem]
      simp [hmem, hfail2]

/-- Witness for the C3 theorem at concrete dual-condition items: the stale
unknown-order sample is counted stale, and the stale unknown-customer order
is recorded as unknown-customer. -/
theorem skip_precedence_amended_witness :
    processSampleItems c3sCfg c3sSt [c3sItem]
      = processSampleItems c3sCfg { c3sSt with skippedOld := c3sSt.skippedOld + 1 } [] ∧
    processOrderItems c3Cfg c3St false [c3Item]
      = processOrderItems c3Cfg
          { c3St with
              skippedUnknownCustomer := c3St.skippedUnknownCustomer + 1,
              skippedEntities := c3St.skippedEntities ++
                [{ entityId := some c3Item.id, reason := "unknown_customer",
                   depId := some 77, recoveryAttempts := some 0,
                   recoveryError := none }] }
          false [] :=
  ⟨skip_precedence_amended.1 c3sCfg c3sSt c3sItem [] (by decide),
   skip_precedence_amended.2 c3Cfg c3St false c3Item [] 77 (by decide)
     (by simp [c3St]) rfl (by decide)⟩

/-- The sample item loop preserves its dependency invariant. -/
theorem processSampleItems_inv (cfg : SampleConfig) (base : List Int) :
    ∀ (items : List SampleItem) (st : SamplePageState),
      sampleInv cfg base st → sampleInv cfg base (processSampleItems cfg st items).1 := by
  intro items
  induction items with
  | nil =>
    intro st h
    simpa [processSampleItems] using h
  | cons item rest ih =>
    intro st h
    obtain ⟨h1, h2, h3⟩ := h
    rw [processSampleItems]
    by_cases hstale : isStale cfg.fullRefresh cfg.lastId item.id
    · rw [if_pos hstale]
      exact ih _ ⟨h1, h2, h3⟩
    · rw [if_neg hstale]
      cases htr : truthyId item.orderId with
      | none =>
        simp only [htr]
        exact ih _ ⟨h1, h2, h3⟩
      | some oid =>
        simp only [htr]
        by_cases hkn : oid ∈ st.knownOrders
        · simp only [if_pos hkn]
          by_cases hw : (cfg.windowMode && ltOpt item.dateCreated cfg.startDt) = true
          · rw [if_pos hw]
            exact ⟨h1, h2, h3⟩
          · rw [if_neg hw]
            by_cases hg : gtOpt item.dateCreated cfg.endDt = true
            · rw [if_pos hg]
              exact ih _ ⟨h1, h2, h3⟩
            · rw [if_neg hg]
              apply ih
              refine ⟨?_, h2, h3⟩
              intro r hr
              rcases List.mem_append.mp hr with hr2 | hr2
              · exact h1 r hr2
              · rw [List.mem_singleton] at hr2
                subst hr2
                exact ⟨oid, htr, hkn⟩
        · cases hres : cfg.resolver with
          | none =>
            simp only [if_neg hkn, hres]
            exact ih _ ⟨h1, h2, h3⟩
          | some f =>
            simp only [if_neg hkn, hres]
            by_cases hsucc : (f EntityType.orders oid).succeeded = true
            · simp only [if_pos hsucc, List.mem_cons, true_or, if_true]
              have h1' : ∀ r ∈ st.records,
                  ∃ o, truthyId r.orderId = some o ∧ o ∈ oid :: st.knownOrders := by
                intro r hr
                obtain ⟨o, ho, hm⟩ := h1 r hr
                exact ⟨o, ho, List.mem_cons_of_mem _ hm⟩
              have h2' : ∀ o ∈ oid :: st.knownOrders,
                  o ∈ base ∨ o ∈ oid :: st.recoveredOrders := by
                intro o hm
                rcases List.mem_cons.mp hm with rfl | hm2
                · exact Or.inr (List.mem_cons_self _ _)
                · rcases h2 o hm2 with hb | hr2
                  · exact Or.inl hb
                  · exact Or.inr (List.mem_cons_of_mem _ hr2)
              have h3' : ∀ o ∈ oid :: st.recoveredOrders,
                  recoveredByResolver cfg.resolver .orders o := by
                intro o hm
                rcases List.mem_cons.mp hm with rfl | hm2
                · exact ⟨f, hres, hsucc⟩
                · exact h3 o hm2
              by_cases hw : (cfg.windowMode && ltOpt item.dateCreated cfg.startDt) = true
              · rw [if_pos hw]
                exact ⟨h1', h2', h3'⟩
              · rw [if_neg hw]
                by_cases hg : gtOpt item.dateCreated cfg.endDt = true
                · rw [if_pos hg]
                  exact ih _ ⟨h1', h2', h3'⟩
                · rw [if_neg hg]
                  apply ih
                  refine ⟨?_, h2', h3'⟩
                  intro r hr
                  rcases List.mem_append.mp hr with hr2 | hr2
                  · exact h1' r hr2
                  · rw [List.mem_singleton] at hr2
                    subst hr2
                    exact ⟨oid, htr, List.mem_cons_self _ _⟩
            · simp only [if_neg hsucc, if_neg hkn]
              exact ih _ ⟨h1, h2, h3⟩

/-- The order item loop preserves its dependency invariant. -/
theorem processOrderItems_inv (cfg : OrderConfig) (base : List Int) :
    ∀ (items : List OrderItem) (st : OrderPageState) (stop : Bool),
      orderInv cfg base st → orderInv cfg base (processOrderItems cfg st stop items).1 := by
  intro items
  induction items with
  | nil =>
    intro st stop h
    simpa [processOrderItems] using h
  | cons item rest ih =>
    intro st stop h
    obtain ⟨h1, h2, h3⟩ := h
    rw [processOrderItems]
    cases htr : truthyId item.customerAccountId with
    | none =>
      simp only [htr]
      exact ih _ _ ⟨h1, h2, h3⟩
    | some cid =>
      simp only [htr]
      by_cases hkn : cid ∈ st.knownCustomers
      · simp only [if_pos hkn]
        by_cases hstale : isStale cfg.fullRefresh cfg.lastId item.id = true
        · rw [if_pos hstale]
          exact ih _ _ ⟨h1, h2, h3⟩
        · rw [if_neg hstale]
          by_cases hlt : ltOpt item.dateCreated cfg.startDt = true
          · rw [if_pos hlt]
            exact ih _ _ ⟨h1, h2, h3⟩
          · rw [if_neg hlt]
            by_cases hg : gtOpt item.dateCreated cfg.endDt = true
            · rw [if_pos hg]
              exact ih _ _ ⟨h1, h2, h3⟩
            · rw [if_neg hg]
              apply ih
              refine ⟨?_, h2, h3⟩
              intro r hr
              rcases List.mem_append.mp hr with hr2 | hr2
              · exact h1 r hr2
              · rw [List.mem_singleton] at hr2
                subst hr2
                exact ⟨cid, htr, hkn⟩
      · cases hres : cfg.resolver with
        | none =>
          simp only [if_neg hkn, hres]
          exact ih _ _ ⟨h1, h2, h3⟩
        | some f =>
          simp only [if_neg hkn, hres]
          by_cases hsucc : (f EntityType.customers cid).succeeded = true
          · simp only [if_pos hsucc, List.mem_cons, true_or, if_true]
            have h1' : ∀ r ∈ st.records,
                ∃ c, truthyId r.customerAccountId = some c ∧ c ∈ cid :: st.knownCustomers := by
              intro r hr
              obtain ⟨c, hc, hm⟩ := h1 r hr
              exact ⟨c, hc, List.mem_cons_of_mem _ hm⟩
            have h2' : ∀ c ∈ cid :: st.knownCustomers,
                c ∈ base ∨ c ∈ cid :: st.recoveredCustomers := by
              intro c hm
              rcases List.mem_cons.mp hm with rfl | hm2
              · exact Or.inr (List.mem_cons_self _ _)
              · rcases h2 c hm2 with hb | hr2
                · exact Or.inl hb
                · exact Or.inr (List.mem_cons_of_mem _ hr2)
            have h3' : ∀ c ∈ cid :: st.recoveredCustomers,
                recoveredByResolver cfg.resolver .customers c := by
              intro c hm
              rcases List.mem_cons.mp hm with rfl | hm2
              · exact ⟨f, hres, hsucc⟩
              · exact h3 c hm2
            by_cases hstale : isStale cfg.fullRefresh cfg.lastId item.id = true
            · rw [if_pos hstale]
              exact ih _ _ ⟨h1', h2', h3'⟩
            · rw [if_neg hstale]
              by_cases hlt : ltOpt item.dateCreated cfg.startDt = true
              · rw [if_pos hlt]
                exact ih _ _ ⟨h1', h2', h3'⟩
              · rw [if_neg hlt]
                by_cases hg : gtOpt item.dateCreated cfg.endDt = true
                · rw [if_pos hg]
                  exact ih _ _ ⟨h1', h2', h3'⟩
                · rw [if_neg hg]
                  apply ih
                  refine ⟨?_, h2', h3'⟩
                  intro r hr
                  rcases List.mem_append.mp hr with hr2 | hr2
                  · exact h1' r hr2
                  · rw [List.mem_singleton] at hr2
                    subst hr2
                    exact ⟨cid, htr, List.mem_cons_self _ _⟩
          · simp only [if_neg hsucc, if_neg hkn]
            exact ih _ _ ⟨h1, h2, h3⟩

/-- The test item loop preserves its dependency invariant. -/
theorem processTestItems_inv (cfg : TestConfig) (base : List Int) :
    ∀ (items : List TestItem) (st : TestPageState),
      testInv cfg base st → testInv cfg base (processTestItems cfg st items).1 := by
  intro items
  induction items with
  | nil =>
    intro st h
    simpa [processTestItems] using h
  | cons item rest ih =>
    intro st h
    obtain ⟨h1, h2, h3⟩ := h
    rw [processTestItems]
    by_cases hstale : isStale cfg.fullRefresh cfg.lastId item.id
    · rw [if_pos hstale]
      exact ih _ ⟨h1, h2, h3⟩
    · rw [if_neg hstale]
      cases htr : truthyId item.sampleId with
      | none =>
        simp only [htr]
        exact ih _ ⟨h1, h2, h3⟩
      | some sid =>
        simp only [htr]
        by_cases hkn : sid ∈ st.knownSamples
        · simp only [if_pos hkn]
          by_cases hw : (cfg.windowMode && ltOpt item.dateCreated cfg.startDt) = true
          · rw [if_pos hw]
            exact ⟨h1, h2, h3⟩
          · rw [if_neg hw]
            by_cases hg : gtOpt item.dateCreated cfg.endDt = true
            · rw [if_pos hg]
              exact ih _ ⟨h1, h2, h3⟩
            · rw [if_neg hg]
              by_cases hd : item.detailBadRequest = true
              · rw [if_pos hd]
                exact ih _ ⟨h1, h2, h3⟩
              · rw [if_neg hd]
                apply ih
                refine ⟨?_, h2, h3⟩
                intro r hr
                rcases List.mem_append.mp hr with hr2 | hr2
                · exact h1 r hr2
                · rw [List.mem_singleton] at hr2
                  subst hr2
                  exact ⟨sid, htr, hkn⟩
        · cases hres : cfg.resolver with
          | none =>
            simp only [if_neg hkn, hres]
            exact ih _ ⟨h1, h2, h3⟩
          | some f =>
            simp only [if_neg hkn, hres]
            by_cases hsucc : (f EntityType.samples sid).succeeded = true
            · simp only [if_pos hsucc, List.mem_cons, true_or, if_true]
              have h1' : ∀ r ∈ st.records,
                  ∃ s, truthyId r.sampleId = some s ∧ s ∈ sid :: st.knownSamples := by
                intro r hr
                obtain ⟨s, hs, hm⟩ := h1 r hr
                exact ⟨s, hs, List.mem_cons_of_mem _ hm⟩
              have h2' : ∀ s ∈ sid :: st.knownSamples,
                  s ∈ base ∨ s ∈ sid :: st.recoveredSamples := by
                intro s hm
                rcases List.mem_cons.mp hm with rfl | hm2
                · exact Or.inr (List.mem_cons_self _ _)
                · rcases h2 s hm2 with hb | hr2
                  · exact Or.inl hb
                  · exact Or.inr (List.mem_cons_of_mem _ hr2)
              have h3' : ∀ s ∈ sid :: st.recoveredSamples,
                  recoveredByResolver cfg.resolver .samples s := by
                intro s hm
                rcases List.mem_cons.mp hm with rfl | hm2
                · exact ⟨f, hres, hsucc⟩
                · exact h3 s hm2
              by_cases hw : (cfg.windowMode && ltOpt item.dateCreated cfg.startDt) = true
              · rw [if_pos hw]
                exact ⟨h1', h2', h3'⟩
              · rw [if_neg hw]
                by_cases hg : gtOpt item.dateCreated cfg.endDt = true
                · rw [if_pos hg]
                  exact ih _ ⟨h1', h2', h3'⟩
                · rw [if_neg hg]
                  by_cases hd : item.detailBadRequest = true
                  · rw [if_pos hd]
                    exact ih _ ⟨h1', h2', h3'⟩
                  · rw [if_neg hd]
                    apply ih
                    refine ⟨?_, h2', h3'⟩
                    intro r hr
                    rcases List.mem_append.mp hr with hr2 | hr2
                    · exact h1' r hr2
                    · rw [List.mem_singleton] at hr2
                      subst hr2
                      exact ⟨sid, htr, List.mem_cons_self _ _⟩
            · simp only [if_neg hsucc, if_neg hkn]
              exact ih _ ⟨h1, h2, h3⟩

/-- The batch dependency-recovery loop never drops known ids. -/
theorem recoverBatchDeps_known_mono (f : EntityType → Int → RecoveryOutcome)
    (t : EntityType) :
    ∀ (sids known : List Int) (x : Int), x ∈ known →
      x ∈ (recoverBatchDeps f t known sids).known := by
  intro sids
  induction sids with
  | nil => intro known x hx; exact hx
  | cons sid rest ih =>
    intro known x hx
    rw [recoverBatchDeps]
    by_cases hmem : sid ∈ known
    · rw [if_pos hmem]
      exact ih known x hx
    · rw [if_neg hmem]
      by_cases hsucc : (f t sid).succeeded = true
      · rw [if_pos hsucc]
        exact ih (sid :: known) x (List.mem_cons_of_mem _ hx)
      · rw [if_neg hsucc]
        exact hx

/-- Ids known after the batch dependency-recovery loop were known before or
were recovered by it. -/
theorem recoverBatchDeps_known_new (f : EntityType → Int → RecoveryOutcome)
    (t : EntityType) :
    ∀ (sids known : List Int) (x : Int), x ∈ (recoverBatchDeps f t known sids).known →
      x ∈ known ∨ x ∈ (recoverBatchDeps f t known sids).recovered := by
  intro sids
  induction sids with
  | nil => intro known x hx; exact Or.inl hx
  | cons sid rest ih =>
    intro known x hx
    rw [recoverBatchDeps] at hx ⊢
    by_cases hmem : sid ∈ known
    · rw [if_pos hmem] at hx ⊢
      exact ih known x hx
    · rw [if_neg hmem] at hx ⊢
      by_cases hsucc : (f t sid).succeeded = true
      · rw [if_pos hsucc] at hx ⊢
        rcases ih (sid :: known) x hx with hk | hr
        · rcases List.mem_cons.mp hk with rfl | hk2
          · exact Or.inr (List.mem_cons_self _ _)
          · exact Or.inl hk2
        · exact Or.inr (List.mem_cons_of_mem _ hr)
      · rw [if_neg hsucc] at hx ⊢
        exact Or.inl hx

/-- Every id the batch dependency-recovery loop reports recovered was indeed
recovered successfully by the oracle. -/
theorem recoverBatchDeps_recovered_ok (f : EntityType → Int → RecoveryOutcome)
    (t : EntityType) :
    ∀ (sids known : List Int) (x : Int), x ∈ (recoverBatchDeps f t known sids).recovered →
      (f t x).succeeded = true := by
  intro sids
  induction sids with
  | nil => intro known x hx; cases hx
  | cons sid rest ih =>
    intro known x hx
    rw [recoverBatchDeps] at hx
    by_cases hmem : sid ∈ known
    · rw [if_pos hmem] at hx
      exact ih known x hx
    · rw [if_neg hmem] at hx
      by_cases hsucc : (f t sid).succeeded = true
      · rw [if_pos hsucc] at hx
        rcases List.mem_cons.mp hx with rfl | hx2
        · exact hsucc
        · exact ih (sid :: known) x hx2
      · rw [if_neg hsucc] at hx
        cases hx

/-- When the batch dependency-recovery loop reports no failure, every listed
id ends up known. -/
theorem recoverBatchDeps_complete (f : EntityType → Int → RecoveryOutcome)
    (t : EntityType) :
    ∀ (sids known : List Int), (recoverBatchDeps f t known sids).failure = none →
      ∀ sid ∈ sids, sid ∈ (recoverBatchDeps f t known sids).known := by
  intro sids
  induction sids with
  | nil => intro known _ sid hsid; cases hsid
  | cons sid0 rest ih =>
    intro known hnone sid hsid
    rw [recoverBatchDeps] at hnone ⊢
    by_cases hmem : sid0 ∈ known
    · rw [if_pos hmem] at hnone ⊢
      rcases List.mem_cons.mp hsid with rfl | hsid2
      · exact recoverBatchDeps_known_mono f t rest known sid hmem
      · exact ih known hnone sid hsid2
    · rw [if_neg hmem] at hnone ⊢
      by_cases hsucc : (f t sid0).succeeded = true
      · rw [if_pos hsucc] at hnone ⊢
        rcases List.mem_cons.mp hsid with rfl | hsid2
        · exact recoverBatchDeps_known_mono f t rest (sid :: known) sid
            (List.mem_cons_self _ _)
        · exact ih (sid0 :: known) hnone sid hsid2
      · rw [if_neg hsucc] at hnone
        cases hnone

/-- The batch item loop preserves its dependency invariant when a resolver
oracle is supplied. -/
theorem processBatchItems_inv (cfg : BatchConfig) (f : EntityType → Int → RecoveryOutcome)
    (hres : cfg.resolver = some f) (baseS baseT : List Int) :
    ∀ (items : List BatchItem) (st : BatchPageState),
      batchInv f baseS baseT st →
      batchInv f baseS baseT (processBatchItems cfg st items).1 := by
  intro items
  induction items with
  | nil =>
    intro st h
    simpa [processBatchItems] using h
  | cons item rest ih =>
    intro st h
    obtain ⟨h1, h2s, h3s, h2t, h3t⟩ := h
    rw [processBatchItems]
    by_cases hstale : isStale cfg.fullRefresh cfg.lastId item.id = true
    · rw [if_pos hstale]
      exact ih _ ⟨h1, h2s, h3s, h2t, h3t⟩
    · rw [if_neg hstale]
      by_cases hw : (cfg.windowMode && ltOpt item.dateCreated cfg.startDt) = true
      · rw [if_pos hw]
        exact ⟨h1, h2s, h3s, h2t, h3t⟩
      · rw [if_neg hw]
        by_cases hnw : (!cfg.windowMode && ltOpt item.dateCreated cfg.startDt) = true
        · rw [if_pos hnw]
          exact ih _ ⟨h1, h2s, h3s, h2t, h3t⟩
        · rw [if_neg hnw]
          by_cases hg : gtOpt item.dateCreated cfg.endDt = true
          · rw [if_pos hg]
            exact ih _ ⟨h1, h2s, h3s, h2t, h3t⟩
          · rw [if_neg hg]
            simp only [hres]
            have h1S : ∀ r ∈ st.records,
                (∀ sid ∈ r.sampleIds,
                   sid ∈ (recoverBatchDeps f .samples st.knownSamples item.sampleIds).known) ∧
                (∀ tid ∈ r.testIds, tid ∈ st.knownTests) := by
              intro r hr
              refine ⟨fun sid hsid => ?_, (h1 r hr).2⟩
              exact recoverBatchDeps_known_mono f .samples item.sampleIds st.knownSamples
                sid ((h1 r hr).1 sid hsid)
            have h2S : ∀ x ∈ (recoverBatchDeps f .samples st.knownSamples item.sampleIds).known,
                x ∈ baseS ∨
                x ∈ (recoverBatchDeps f .samples st.knownSamples item.sampleIds).recovered
                      ++ st.recoveredSamples := by
              intro x hx
              rcases recoverBatchDeps_known_new f .samples item.sampleIds st.knownSamples
                  x hx with hk | hr2
              · rcases h2s x hk with hb | hr3
                · exact Or.inl hb
                · exact Or.inr (List.mem_append_right _ hr3)
              · exact Or.inr (List.mem_append_left _ hr2)
            have h3S : ∀ x ∈ (recoverBatchDeps f .samples st.knownSamples item.sampleIds).recovered
                  ++ st.recoveredSamples, (f .samples x).succeeded = true := by
              intro x hx
              rcases List.mem_append.mp hx with hx2 | hx2
              · exact recoverBatchDeps_recovered_ok f .samples item.sampleIds st.knownSamples x hx2
              · exact h3s x hx2
            cases hfailS : (recoverBatchDeps f .samples st.knownSamples item.sampleIds).failure with
            | some p =>
              obtain ⟨sid, oc⟩ := p
              simp only [hfailS]
              exact ih _ ⟨h1S, h2S, h3S, h2t, h3t⟩
            | none =>
              simp only [hfailS]
              have h1T : ∀ r ∈ st.records,
                  (∀ sid ∈ r.sampleIds,
                     sid ∈ (recoverBatchDeps f .samples st.knownSamples item.sampleIds).known) ∧
                  (∀ tid ∈ r.testIds,
                     tid ∈ (recoverBatchDeps f .tests st.knownTests item.testIds).known) := by
                intro r hr
                refine ⟨(h1S r hr).1, fun tid htid => ?_⟩
                exact recoverBatchDeps_known_mono f .tests item.testIds st.knownTests
                  tid ((h1S r hr).2 tid htid)
              have h2T : ∀ x ∈ (recoverBatchDeps f .tests st.knownTests item.testIds).known,
                  x ∈ baseT ∨
                  x ∈ (recoverBatchDeps f .tests st.knownTests item.testIds).recovered
                        ++ st.recoveredTests := by
                intro x hx
                rcases recoverBatchDeps_known_new f .tests item.testIds st.knownTests
                    x hx with hk | hr2
                · rcases h2t x hk with hb | hr3
                  · exact Or.inl hb
                  · exact Or.inr (List.mem_append_right _ hr3)
                · exact Or.inr (List.mem_append_left _ hr2)
              have h3T : ∀ x ∈ (recoverBatchDeps f .tests st.knownTests item.testIds).recovered
                    ++ st.recoveredTests, (f .tests x).succeeded = true := by
                intro x hx
                rcases List.mem_append.mp hx with hx2 | hx2
                · exact recoverBatchDeps_recovered_ok f .tests item.testIds st.knownTests x hx2
                · exact h3t x hx2
              cases hfailT : (recoverBatchDeps f .tests st.knownTests item.testIds).failure with
              | some p =>
                obtain ⟨tid, oc⟩ := p
                simp only [hfailT]
                exact ih _ ⟨h1T, h2S, h3S, h2T, h3T⟩
              | none =>
                simp only [hfailT]
                apply ih
                refine ⟨?_, h2S, h3S, h2T, h3T⟩
                intro r hr
                rcases List.mem_append.mp hr with hr2 | hr2
                · exact h1T r hr2
                · rw [List.mem_singleton] at hr2
                  subst hr2
                  refine ⟨fun sid hsid => ?_, fun tid htid => ?_⟩
                  · exact recoverBatchDeps_complete f .samples r.sampleIds
                      st.knownSamples hfailS sid hsid
                  · exact recoverBatchDeps_complete f .tests r.testIds
                      st.knownTests hfailT tid htid

/-- C1 (corrected): every record the sample, order and test workers persist
references a dependency (order, customer, sample respectively) that was
already known locally or was successfully recovered, with or without a
resolver handle, and an item whose dependency is absent and not recovered
is dropped — never written — and appended to the run's skipped list with a
structured `unknown_<dependency>` reason; every batch a worker persists
references only known-or-recovered samples and tests provided a resolver
handle was supplied, a failed recovery likewise dropping and recording the
batch — but without a resolver, `sync_batches` persists batches without
checking their listed ids (see the counterexample). -/
theorem dependency_presence_amended :
    (∀ (cfg : SampleConfig) (base : List Int) (items : List SampleItem),
       sampleDepsJustified base cfg.resolver
         (processSampleItems cfg { knownOrders := base } items).1) ∧
    (∀ (cfg : OrderConfig) (base : List Int) (stop : Bool) (items : List OrderItem),
       orderDepsJustified base cfg.resolver
         (processOrderItems cfg { knownCustomers := base } stop items).1) ∧
    (∀ (cfg : TestConfig) (base : List Int) (items : List TestItem),
       testDepsJustified base cfg.resolver
         (processTestItems cfg { knownSamples := base } items).1) ∧
    (∀ (cfg : BatchConfig) (f : EntityType → Int → RecoveryOutcome)
       (baseS baseT : List Int) (items : List BatchItem),
       cfg.resolver = some f →
       batchDepsJustified baseS baseT cfg.resolver
         (processBatchItems cfg { knownSamples := baseS, knownTests := baseT } items).1) ∧
    (∀ (cfg : SampleConfig) (st : SamplePageState) (item : SampleItem)
       (rest : List SampleItem) (oid : Int),
       isStale cfg.fullRefresh cfg.lastId item.id = false →
       truthyId item.orderId = some oid →
       oid ∉ st.knownOrders →
       (match cfg.resolver with
        | some f => (f EntityType.orders oid).succeeded
        | none => false) = false →
       processSampleItems cfg st (item :: rest) =
         processSampleItems cfg
           { st with
               skippedUnknownOrder := st.skippedUnknownOrder + 1,
               skippedEntities := st.skippedEntities ++
                 [{ entityId := some item.id, reason := "unknown_order",
                    depId := some oid,
                    recoveryAttempts := some (match cfg.resolver with
                      | some f => (f EntityType.orders oid).attempts
                      | none => 0),
                    recoveryError := match cfg.resolver with
                      | some f => (f EntityType.orders oid).error
                      | none => none }] }
           rest) ∧
    (∀ (cfg : OrderConfig) (st : OrderPageState) (stop : Bool) (item : OrderItem)
       (rest : List OrderItem) (cid : Int),
       truthyId item.customerAccountId = some cid →
       cid ∉ st.knownCustomers →
       (match cfg.resolver with
        | some f => (f EntityType.customers cid).succeeded
        | none => false) = false →
       processOrderItems cfg st stop (item :: rest) =
         processOrderItems cfg
           { st with
               skippedUnknownCustomer := st.skippedUnknownCustomer + 1,
               skippedEntities := st.skippedEntities ++
                 [{ entityId := some item.id, reason := "unknown_customer",
                    depId := some cid,
                    recoveryAttempts := some (match cfg.resolver with
                      | some f => (f EntityType.customers cid).attempts
                      | none => 0),
                    recoveryError := match cfg.resolver with
                      | some f => (f EntityType.customers cid).error
                      | none => none }] }
           stop rest) ∧
    (∀ (cfg : TestConfig) (st : TestPageState) (item : TestItem)
       (rest : List TestItem) (sid : Int),
       isStale cfg.fullRefresh cfg.lastId item.id = false →
       truthyId item.sampleId = some sid →
       sid ∉ st.knownSamples →
       (match cfg.resolver with
        | some f => (f EntityType.samples sid).succeeded
        | none => false) = false →
       processTestItems cfg st (item :: rest) =
         processTestItems cfg
           { st with
               skippedUnknownSample := st.skippedUnknownSample + 1,
               skippedEntities := st.skippedEntities ++
                 [{ entityId := some item.id, reason := "unknown_sample",
                    depId := some sid,
                    recoveryAttempts := some (match cfg.resolver with
                      | some f => (f EntityType.samples sid).attempts
                      | none => 0),
                    recoveryError := match cfg.resolver with
                      | some f => (f EntityType.samples sid).error
                      | none => none }] }
           rest) ∧
    (∀ (cfg : BatchConfig) (f : EntityType → Int → RecoveryOutcome)
       (st : BatchPageState) (item : BatchItem) (rest : List BatchItem)
       (k rec : List Int) (c : Nat) (sid : Int) (oc : RecoveryOutcome),
       cfg.resolver = some f →
       isStale cfg.fullRefresh cfg.lastId item.id = false →
       (cfg.windowMode && ltOpt item.dateCreated cfg.startDt) = false →
       (!cfg.windowMode && ltOpt item.dateCreated cfg.startDt) = false →
       gtOpt item.dateCreated cfg.endDt = false →
       recoverBatchDeps f .samples st.knownSamples item.sampleIds
         = ⟨k, rec, c, some (sid, oc)⟩ →
       processBatchItems cfg st (item :: rest) =
         processBatchItems cfg
           { st with
               knownSamples := k,
               recoveredSamples := rec ++ st.recoveredSamples,
               dependenciesRecovered := st.dependenciesRecovered + c,
               skippedMissingDependency := st.skippedMissingDependency + 1,
               skippedEntities := st.skippedEntities ++
                 [{ entityId := some item.id, reason := "unknown_sample",
                    depId := some sid,
                    recoveryAttempts := some oc.attempts,
                    recoveryError := oc.error }] }
           rest) ∧
    (∀ (cfg : BatchConfig) (f : EntityType → Int → RecoveryOutcome)
       (st : BatchPageState) (item : BatchItem) (rest : List BatchItem)
       (k1 rec1 : List Int) (c1 : Nat) (k2 rec2 : List Int) (c2 : Nat)
       (tid : Int) (oc : RecoveryOutcome),
       cfg.resolver = some f →
       isStale cfg.fullRefresh cfg.lastId item.id = false →
       (cfg.windowMode && ltOpt item.dateCreated cfg.startDt) = false →
       (!cfg.windowMode && ltOpt item.dateCreated cfg.startDt) = false →
       gtOpt item.dateCreated cfg.endDt = false →
       recoverBatchDeps f .samples st.knownSamples item.sampleIds
         = ⟨k1, rec1, c1, none⟩ →
       recoverBatchDeps f .tests st.knownTests item.testIds
         = ⟨k2, rec2, c2, some (tid, oc)⟩ →
       processBatchItems cfg st (item :: rest) =
         processBatchItems cfg
           { st with
               knownSamples := k1,
               recoveredSamples := rec1 ++ st.recoveredSamples,
               knownTests := k2,
               recoveredTests := rec2 ++ st.recoveredTests,
               dependenciesRecovered := st.dependenciesRecovered + c1 + c2,
               skippedMissingDependency := st.skippedMissingDependency + 1,
               skippedEntities := st.skippedEntities ++
                 [{ entityId := some item.id, reason := "unknown_test",
                    depId := some tid,
                    recoveryAttempts := some oc.attempts,
                    recoveryError := oc.error }] }
           rest) := by
  refine ⟨?_, ?_, ?_, ?_, ?_, ?_, ?_, ?_, ?_⟩
  · intro cfg base items
    have hinv := processSampleItems_inv cfg base items { knownOrders := base }
      ⟨fun r hr => absurd hr (List.not_mem_nil r),
       fun o ho => Or.inl ho,
       fun o ho => absurd ho (List.not_mem_nil o)⟩
    intro r hr
    obtain ⟨o, ho, hk⟩ := hinv.1 r hr
    rcases hinv.2.1 o hk with hb | hrec
    · exact ⟨o, ho, Or.inl hb⟩
    · exact ⟨o, ho, Or.inr ⟨hrec, hinv.2.2 o hrec⟩⟩
  · intro cfg base stop items
    have hinv := processOrderItems_inv cfg base items { knownCustomers := base } stop
      ⟨fun r hr => absurd hr (List.not_mem_nil r),
       fun c hc => Or.inl hc,
       fun c hc => absurd hc (List.not_mem_nil c)⟩
    intro r hr
    obtain ⟨c, hc, hk⟩ := hinv.1 r hr
    rcases hinv.2.1 c hk with hb | hrec
    · exact ⟨c, hc, Or.inl hb⟩
    · exact ⟨c, hc, Or.inr ⟨hrec, hinv.2.2 c hrec⟩⟩
  · intro cfg base items
    have hinv := processTestItems_inv cfg base items { knownSamples := base }
      ⟨fun r hr => absurd hr (List.not_mem_nil r),
       fun s hs => Or.inl hs,
       fun s hs => absurd hs (List.not_mem_nil s)⟩
    intro r hr
    obtain ⟨s, hs, hk⟩ := hinv.1 r hr
    rcases hinv.2.1 s hk with hb | hrec
    · exact ⟨s, hs, Or.inl hb⟩
    · exact ⟨s, hs, Or.inr ⟨hrec, hinv.2.2 s hrec⟩⟩
  · intro cfg f baseS baseT items hres
    have hinv := processBatchItems_inv cfg f hres baseS baseT items
      { knownSamples := baseS, knownTests := baseT }
      ⟨fun r hr => absurd hr (List.not_mem_nil r),
       fun x hx => Or.inl hx,
       fun x hx => absurd hx (List.not_mem_nil x),
       fun x hx => Or.inl hx,
       fun x hx => absurd hx (List.not_mem_nil x)⟩
    intro r hr
    obtain ⟨h1, h2s, h3s, h2t, h3t⟩ := hinv
    refine ⟨fun sid hsid => ?_, fun tid htid => ?_⟩
    · rcases h2s sid ((h1 r hr).1 sid hsid) with hb | hrec
      · exact Or.inl hb
      · exact Or.inr ⟨hrec, f, hres, h3s sid hrec⟩
    · rcases h2t tid ((h1 r hr).2 tid htid) with hb | hrec
      · exact Or.inl hb
      · exact Or.inr ⟨hrec, f, hres, h3t tid hrec⟩
  · intro cfg st item rest oid hstale htruthy hmem hfail
    rw [processSampleItems]
    rw [if_neg (by simp [hstale])]
    cases hres : cfg.resolver with
    | none =>
      simp only [htruthy, hres, hmem]
      simp [hmem]
    | some f =>
      rw [hres] at hfail
      have hfail2 : (f EntityType.orders oid).succeeded = false := hfail
      simp only [htruthy, hres, hmem]
      simp [hmem, hfail2]
  · intro cfg st stop item rest cid htruthy hmem hfail
    rw [processOrderItems]
    cases hres : cfg.resolver with
    | none =>
      simp only [htruthy, hres, hmem]
      simp [hmem]
    | some f =>
      rw [hres] at hfail
      have hfail2 : (f EntityType.customers cid).succeeded = false := hfail
      simp only [htruthy, hres, hmem]
      simp [hmem, hfail2]
  · intro cfg st item rest sid hstale htruthy hmem hfail
    rw [processTestItems]
    rw [if_neg (by simp [hstale])]
    cases hres : cfg.resolver with
    | none =>
      simp only [htruthy, hres, hmem]
      simp [hmem]
    | some f =>
      rw [hres] at hfail
      have hfail2 : (f EntityType.samples sid).succeeded = false := hfail
      simp only [htruthy, hres, hmem]
      simp [hmem, hfail2]
  · intro cfg f st item rest k rec c sid oc hres hstale hw hnw hg hrbd
    rw [processBatchItems]
    rw [if_neg (by simp [hstale])]
    rw [if_neg (by simp [hw])]
    rw [if_neg (by simp [hnw])]
    rw [if_neg (by simp [hg])]
    simp only [hres, hrbd]
  · intro cfg f st item rest k1 rec1 c1 k2 rec2 c2 tid oc hres hstale hw hnw hg
      hrbd1 hrbd2
    rw [processBatchItems]
    rw [if_neg (by simp [hstale])]
    rw [if_neg (by simp [hw])]
    rw [if_neg (by simp [hnw])]
    rw [if_neg (by simp [hg])]
    simp only [hres, hrbd1, hrbd2]

/-- Witness for the hypothesised parts of the C1 theorem: a batch run with a
resolver that recovers everything satisfies the dependency-presence
property, and a sample with an unknown, unrecovered order is dropped and
recorded as skipped with reason `unknown_order`. -/
theorem dependency_presence_amended_witness :
    batchDepsJustified [5] [] c1wCfg.resolver
      (processBatchItems c1wCfg { knownSamples := [5], knownTests := [] } [c1wBatch]).1 ∧
    processSampleItems c1sCfg c1sSt [c1sItem]
      = processSampleItems c1sCfg
          { c1sSt with
              skippedUnknownOrder := c1sSt.skippedUnknownOrder + 1,
              skippedEntities := c1sSt.skippedEntities ++
                [{ entityId := some c1sItem.id, reason := "unknown_order",
                   depId := some 88, recoveryAttempts := some 0,
                   recoveryError := none }] }
          [] :=
  ⟨dependency_presence_amended.2.2.2.1 c1wCfg c1wResolver [5] [] [c1wBatch] rfl,
   dependency_presence_amended.2.2.2.2.1 c1sCfg c1sSt c1sItem [] 88 (by decide)
     (by decide) (by simp [c1sSt]) rfl⟩

/-- C1 counterexample: with no resolver handle, `sync_batches` persists a
batch whose listed sample 99 neither exists locally nor was recovered, so
the claimed invariant fails for a worker run without a recovery service. -/
theorem dependency_presence_cex :
    c1Cfg.resolver = none ∧
    (processBatchItems c1Cfg c1St [c1Batch]).1.records = [c1Batch] ∧
    ¬ batchDepsJustified c1St.knownSamples c1St.knownTests c1Cfg.resolver
        (processBatchItems c1Cfg c1St [c1Batch]).1 := by
  refine ⟨rfl, by decide, ?_⟩
  intro hjust
  have h := hjust c1Batch (by decide)
  have h99 := h.1 99 (by decide)
  rcases h99 with h99 | ⟨_, f, hres, _⟩
  · exact absurd h99 (by decide)
  · exact Option.noConfusion hres

theorem optLe_refl (a : Option Int) : optLe a a := by
  cases a <;> simp [optLe]

theorem optLe_trans {a b c : Option Int} (h1 : optLe a b) (h2 : optLe b c) :
    optLe a c := by
  cases a <;> cases b <;> cases c <;> simp [optLe] at * <;> omega

theorem optLe_maxOptId (a : Option Int) (i : Int) : optLe a (maxOptId a i) := by
  cases a with
  | none => simp [optLe]
  | some m =>
    simp only [maxOptId]
    by_cases h : m < i
    · rw [if_pos h]
      simp only [optLe]
      omega
    · rw [if_neg h]
      simp [optLe]

/-- The running maximum id never decreases across a page of items. -/
theorem processSampleItems_maxId_mono (cfg : SampleConfig) :
    ∀ (items : List SampleItem) (st : SamplePageState),
      optLe st.maxId (processSampleItems cfg st items).1.maxId := by
  intro items
  induction items with
  | nil =>
    intro st
    simp [processSampleItems, optLe_refl]
  | cons item rest ih =>
    intro st
    have ihmax : ∀ st2 : SamplePageState, st2.maxId = st.maxId →
        optLe st.maxId (processSampleItems cfg st2 rest).1.maxId :=
      fun st2 h => h ▸ ih st2
    have ihacc : ∀ st2 : SamplePageState, st2.maxId = maxOptId st.maxId item.id →
        optLe st.maxId (processSampleItems cfg st2 rest).1.maxId :=
      fun st2 h => optLe_trans (optLe_maxOptId st.maxId item.id) (h ▸ ih st2)
    rw [processSampleItems]
    by_cases hstale : isStale cfg.fullRefresh cfg.lastId item.id
    · rw [if_pos hstale]
      exact ihmax _ rfl
    · rw [if_neg hstale]
      cases htr : truthyId item.orderId with
      | none =>
        simp only [htr]
        exact ihmax _ rfl
      | some oid =>
        simp only [htr]
        by_cases hkn : oid ∈ st.knownOrders
        · simp only [if_pos hkn]
          by_cases hw : (cfg.windowMode && ltOpt item.dateCreated cfg.startDt) = true
          · rw [if_pos hw]
            exact optLe_refl _
          · rw [if_neg hw]
            by_cases hg : gtOpt item.dateCreated cfg.endDt = true
            · rw [if_pos hg]
              exact ihmax _ rfl
            · rw [if_neg hg]
              exact ihacc _ rfl
        · cases hres : cfg.resolver with
          | none =>
            simp only [if_neg hkn, hres]
            exact ihmax _ rfl
          | some f =>
            simp only [if_neg hkn, hres]
            by_cases hsucc : (f EntityType.orders oid).succeeded = true
            · simp only [if_pos hsucc, List.mem_cons, true_or, if_true]
              by_cases hw : (cfg.windowMode && ltOpt item.dateCreated cfg.startDt) = true
              · rw [if_pos hw]
                exact optLe_refl _
              · rw [if_neg hw]
                by_cases hg : gtOpt item.dateCreated cfg.endDt = true
                · rw [if_pos hg]
                  exact ihmax _ rfl
                · rw [if_neg hg]
                  exact ihacc _ rfl
            · simp only [if_neg hsucc, if_neg hkn]
              exact ihmax _ rfl

/-- The running maximum id never decreases across the whole page loop. -/
theorem samplesSyncLoop_maxId_mono (pages : List (List SampleItem)) (cfg : SampleConfig) :
    ∀ (fuel current : Nat) (st : SamplePageState) (store : SamplesStore)
      (req : List Nat) (log : List (Nat × List SampleItem × Bool)),
      optLe st.maxId (samplesSyncLoop pages cfg fuel current st store req log).state.maxId := by
  intro fuel
  induction fuel with
  | zero =>
    intro current st store req log
    simp [samplesSyncLoop, optLe_refl]
  | succ n ih =>
    intro current st store req log
    rw [samplesSyncLoop]
    by_cases hempty : (fetchSamplesPage pages current).isEmpty = true
    · rw [if_pos hempty]
      exact optLe_refl _
    · rw [if_neg hempty]
      have hstep : optLe st.maxId
          (processSampleItems cfg { st with records := [] }
            (fetchSamplesPage pages current)).1.maxId :=
        processSampleItems_maxId_mono cfg _ { st with records := [] }
      by_cases hstop : (processSampleItems cfg { st with records := [] }
          (fetchSamplesPage pages current)).2 = true
      · rw [if_pos hstop]
        exact hstep
      · rw [if_neg hstop]
        by_cases hlast : pages.length ≠ 0 ∧ pages.length ≤ current
        · rw [if_pos hlast]
          exact hstep
        · rw [if_neg hlast]
          exact optLe_trans hstep (ih _ _ _ _ _)

/-- C2 (corrected): in normal incremental mode (no full refresh, no
`ignore_checkpoint`) the checkpoint's `last_id` after a `sync_samples` run is
at least its value before the run. -/
theorem watermark_monotone_amended :
    ∀ (args : SamplesRunArgs) (db : SamplesStore) (ko : List Int),
      args.ignoreCheckpoint = false → args.fullRefresh = false →
      optLe db.checkpoint.lastId
        ((syncSamplesRun args db ko).1.store.checkpoint.lastId) := by
  intro args db ko hic hfr
  simp only [syncSamplesRun, hic, hfr, Bool.false_eq_true, if_false,
    markCheckpointCompletedSamples]
  have hmono : ∀ (cfg2 : SampleConfig) (fuel cur : Nat) (st2 : SamplePageState)
      (store : SamplesStore) (req : List Nat)
      (log : List (Nat × List SampleItem × Bool)),
      st2.maxId = db.checkpoint.lastId →
      optLe db.checkpoint.lastId
        (samplesSyncLoop args.pages cfg2 fuel cur st2 store req log).state.maxId :=
    fun cfg2 fuel cur st2 store req log h =>
      h ▸ samplesSyncLoop_maxId_mono args.pages cfg2 fuel cur st2 store req log
  exact hmono _ _ _ _ _ _ _ rfl

/-- Witness for the C2 theorem: a normal incremental run from a stored
watermark of 5 keeps the watermark at 5 or above. -/
theorem watermark_monotone_amended_witness :
    optLe (some 5) ((syncSamplesRun c2wArgs c2wDb [1]).1.store.checkpoint.lastId) :=
  watermark_monotone_amended c2wArgs c2wDb [1] rfl rfl

/-- C2 counterexample: a windowed (`ignore_checkpoint`) run rebuilds the
watermark from only the records it saw, so a stored `last_id` of 5 is
overwritten with 3 — the watermark regresses, contradicting the claim that
it never regresses in any mode. -/
theorem watermark_monotone_cex :
    c2Db.checkpoint.lastId = some 5 ∧
    (syncSamplesRun c2Args c2Db [1]).1.store.checkpoint.lastId = some 3 ∧
    ¬ optLe c2Db.checkpoint.lastId
        ((syncSamplesRun c2Args c2Db [1]).1.store.checkpoint.lastId) := by
  refine ⟨rfl, by decide, by decide⟩

theorem upsertOne_self (t : List SampleItem) (r : SampleItem) :
    ∃ y ∈ upsertOne t r, y.id = r.id := by
  rw [upsertOne]
  by_cases h : (t.any fun x => x.id == r.id) = true
  · rw [if_pos h]
    obtain ⟨x, hx, hxid⟩ := List.any_eq_true.mp h
    refine ⟨r, ?_, rfl⟩
    rw [List.mem_map]
    exact ⟨x, hx, by rw [if_pos hxid]⟩
  · rw [if_neg h]
    exact ⟨r, List.mem_append_right _ (List.mem_singleton_self r), rfl⟩

theorem upsertOne_keeps (t : List SampleItem) (r : SampleItem) (i : Int)
    (h : ∃ y ∈ t, y.id = i) : ∃ y ∈ upsertOne t r, y.id = i := by
  obtain ⟨y, hy, hyi⟩ := h
  subst hyi
  rw [upsertOne]
  by_cases hany : (t.any fun x => x.id == r.id) = true
  · rw [if_pos hany]
    by_cases hid : (y.id == r.id) = true
    · refine ⟨r, ?_, (eq_of_beq hid).symm⟩
      rw [List.mem_map]
      exact ⟨y, hy, by rw [if_pos hid]⟩
    · refine ⟨y, ?_, rfl⟩
      rw [List.mem_map]
      exact ⟨y, hy, by rw [if_neg hid]⟩
  · rw [if_neg hany]
    exact ⟨y, List.mem_append_left _ hy, rfl⟩

theorem upsertById_keeps :
    ∀ (rows t : List SampleItem) (i : Int), (∃ y ∈ t, y.id = i) →
      ∃ y ∈ upsertById t rows, y.id = i := by
  intro rows
  induction rows with
  | nil => intro t i h; exact h
  | cons r rs ih =>
    intro t i h
    rw [upsertById]
    exact ih (upsertOne t r) i (upsertOne_keeps t r i h)

/-- Every row of an upserted batch is present (by id) in the table
afterwards. -/
theorem upsertById_mem :
    ∀ (rows t : List SampleItem), ∀ r ∈ rows, ∃ y ∈ upsertById t rows, y.id = r.id := by
  intro rows
  induction rows with
  | nil => intro t r hr; cases hr
  | cons r0 rs ih =>
    intro t r hr
    rw [upsertById]
    rcases List.mem_cons.mp hr with rfl | hr2
    · exact upsertById_keeps rs (upsertOne t r) r.id (upsertOne_self t r)
    · exact ih (upsertOne t r0) r hr2

theorem persistBatchSamples_mem (store : SamplesStore) (rows : List SampleItem)
    (page : Nat) (ms mi : Option Int) :
    ∀ r ∈ rows, ∃ y ∈ (persistBatchSamples store rows page ms mi).table, y.id = r.id := by
  cases rows with
  | nil => intro r hr; cases hr
  | cons a as =>
    intro r hr
    simp only [persistBatchSamples, List.isEmpty_cons, Bool.false_eq_true, if_false]
    exact upsertById_mem (a :: as) store.table r hr

/-- If the page loop records a `stop_after_page` persist at page `p`, then
no page after `p` is ever requested, and the rows persisted at `p` are in
the table when the loop returns. -/
theorem samplesSyncLoop_stop_last (pages : List (List SampleItem)) (cfg : SampleConfig) :
    ∀ (fuel current : Nat) (st : SamplePageState) (store : SamplesStore)
      (req : List Nat) (log : List (Nat × List SampleItem × Bool)),
      (∀ e ∈ log, e.2.2 = false) →
      (∀ q ∈ req, q ≤ current) →
      ∀ (p : Nat) (rows : List SampleItem),
        (p, rows, true) ∈ (samplesSyncLoop pages cfg fuel current st store req log).persistLog →
        (∀ q ∈ (samplesSyncLoop pages cfg fuel current st store req log).requested, q ≤ p) ∧
        (∀ r ∈ rows,
           ∃ y ∈ (samplesSyncLoop pages cfg fuel current st store req log).store.table,
             y.id = r.id) := by
  intro fuel
  induction fuel with
  | zero =>
    intro current st store req log hlog hreq p rows hmem
    rw [samplesSyncLoop] at hmem
    exact absurd (hlog _ hmem) (by simp)
  | succ n ih =>
    intro current st store req log hlog hreq p rows hmem
    rw [samplesSyncLoop] at hmem ⊢
    by_cases hempty : (fetchSamplesPage pages current).isEmpty = true
    · rw [if_pos hempty] at hmem ⊢
      exact absurd (hlog _ hmem) (by simp)
    · rw [if_neg hempty] at hmem ⊢
      by_cases hstop : (processSampleItems cfg { st with records := [] }
          (fetchSamplesPage pages current)).2 = true
      · rw [if_pos hstop] at hmem ⊢
        rcases List.mem_append.mp hmem with hin | hin
        · exact absurd (hlog _ hin) (by simp)
        · rw [List.mem_singleton] at hin
          have hp : p = current := (Prod.ext_iff.mp hin).1
          have hrows : rows =
              (processSampleItems cfg { st with records := [] }
                (fetchSamplesPage pages current)).1.records :=
            (Prod.ext_iff.mp (Prod.ext_iff.mp hin).2).1
          subst hp
          constructor
          · intro q hq
            rcases List.mem_append.mp hq with hq2 | hq2
            · exact hreq q hq2
            · rw [List.mem_singleton] at hq2
              omega
          · intro r hr
            rw [hrows] at hr
            exact persistBatchSamples_mem store _ p _ _ r hr
      · rw [if_neg hstop] at hmem ⊢
        by_cases hlast : pages.length ≠ 0 ∧ pages.length ≤ current
        · rw [if_pos hlast] at hmem ⊢
          rcases List.mem_append.mp hmem with hin | hin
          · exact absurd (hlog _ hin) (by simp)
          · rw [List.mem_singleton] at hin
            exact absurd ((Prod.ext_iff.mp (Prod.ext_iff.mp hin).2).2.symm) hstop
        · rw [if_neg hlast] at hmem ⊢
          refine ih _ _ _ _ _ ?_ ?_ p rows hmem
          · intro e he
            rcases List.mem_append.mp he with he2 | he2
            · exact hlog e he2
            · rw [List.mem_singleton] at he2
              subst he2
              cases hb : (processSampleItems cfg { st with records := [] }
                  (fetchSamplesPage pages current)).2 with
              | false => rfl
              | true => exact absurd hb hstop
          · intro q hq
            rcases List.mem_append.mp hq with hq2 | hq2
            · exact Nat.le_succ_of_le (hreq q hq2)
            · rw [List.mem_singleton] at hq2
              omega

/-- C8: in windowed mode (`ignore_checkpoint` with a start bound) the
sample worker lists pages sorted descending by creation time, and whenever a
page's processing sets `stop_after_page` the loop persists that page's
accumulated batch and never requests any later page; in the concrete
three-page scenario the out-of-window item on page 2 stops the run after
pages 1 and 2, page 3 is never requested, and the in-window page-2 row is
persisted. -/
theorem windowed_stop_after_page :
    (∀ (args : SamplesRunArgs) (db : SamplesStore) (ko : List Int) (s : Int),
       args.ignoreCheckpoint = true → args.startDt = some s →
       (syncSamplesRun args db ko).2.1 = "date_created" ∧
       (syncSamplesRun args db ko).2.2 = "desc" ∧
       ∀ (p : Nat) (rows : List SampleItem),
         (p, rows, true) ∈ (syncSamplesRun args db ko).1.persistLog →
         (∀ q ∈ (syncSamplesRun args db ko).1.requested, q ≤ p) ∧
         (p + 1) ∉ (syncSamplesRun args db ko).1.requested ∧
         ∀ r ∈ rows, ∃ y ∈ (syncSamplesRun args db ko).1.store.table, y.id = r.id) ∧
    (2, c8StopRows, true) ∈ (syncSamplesRun c8Args {} [1]).1.persistLog ∧
    (syncSamplesRun c8Args {} [1]).1.requested = [1, 2] := by
  refine ⟨?_, by decide, by decide⟩
  intro args db ko s hic hs
  refine ⟨?_, ?_, ?_⟩
  · simp [syncSamplesRun, hic, hs]
  · simp [syncSamplesRun, hic, hs]
  · intro p rows hmem
    simp only [syncSamplesRun, markCheckpointCompletedSamples] at hmem ⊢
    have h := samplesSyncLoop_stop_last args.pages _ _ _ _ _ _ _
      (fun e he => absurd he (List.not_mem_nil e))
      (fun q hq => absurd hq (List.not_mem_nil q)) p rows hmem
    refine ⟨h.1, ?_, h.2⟩
    intro hm
    have h2 := h.1 (p + 1) hm
    omega

/-- Witness for the hypothesised part of the C8 theorem at the concrete
three-page scenario: page 3 is never requested and the listing is sorted
descending by creation time. -/
theorem windowed_stop_after_page_witness :
    (3 : Nat) ∉ (syncSamplesRun c8Args {} [1]).1.requested ∧
    (syncSamplesRun c8Args {} [1]).2.1 = "date_created" := by
  have h := windowed_stop_after_page.1 c8Args {} [1] 100 rfl rfl
  have h2 := h.2.2 2 c8StopRows (by decide)
  exact ⟨h2.2.1, h.1⟩

/-- The extracted dependency of a kind sits strictly lower in the
hierarchy. -/
theorem depTarget_rank : ∀ (t dt : EntityType), depTarget t = some dt →
    rank dt < rank t := by
  intro t dt h
  cases t <;> cases dt <;> simp_all [depTarget, rank]

/-- Starting from a visited set whose members all rank above the current
kind — in particular from the empty set of a top-level `ensure` call — the
recovery recursion can never report a cyclic-dependency failure, because
extracted dependencies descend the fixed hierarchy and so never revisit a
pair. -/
theorem recover_no_cycle (env : RecoveryEnv) :
    ∀ (n : Nat) (t : EntityType) (i : Int) (visited : Finset EntityKey)
      (st : RecoveryState),
      rank t ≤ n →
      (∀ k ∈ visited, rank t < rank k.fst) →
      ∀ (e : RecoveryException), recover env st t i visited = .error e →
        ∀ (t2 : EntityType) (i2 : Int), e ≠ .cyclicDependency t2 i2 := by
  intro n
  induction n using Nat.strong_induction_on with
  | _ n ih =>
    intro t i visited st hrank hvis e hrec t2 i2
    rw [recover] at hrec
    by_cases hv : (t, i) ∈ visited
    · exact absurd (hvis (t, i) hv) (lt_irrefl _)
    · rw [dif_neg hv] at hrec
      by_cases hl : (t, i) ∈ st.localKeys
      · rw [if_pos hl] at hrec
        exact Except.noConfusion hrec
      · rw [if_neg hl] at hrec
        split at hrec
        · next heq =>
          injection hrec with h
          subst h
          simp
        · next payload heq =>
          cases hdt : depTarget t with
          | none =>
            rw [hdt] at hrec
            exact Except.noConfusion hrec
          | some dt =>
            rw [hdt] at hrec
            cases hdep : payload.depId with
            | none =>
              rw [hdep] at hrec
              injection hrec with h
              subst h
              simp
            | some di =>
              rw [hdep] at hrec
              simp only [] at hrec
              cases hsub : recover env st dt di (insert (t, i) visited) with
              | error e2 =>
                rw [hsub] at hrec
                injection hrec with h
                subst h
                have hdtr := depTarget_rank t dt hdt
                refine ih (rank dt) (by omega) dt di (insert (t, i) visited) st
                  le_rfl ?_ e2 hsub t2 i2
                intro k hk
                rcases Finset.mem_insert.mp hk with rfl | hk2
                · exact hdtr
                · exact lt_trans hdtr (hvis k hk2)
              | ok st1 =>
                rw [hsub] at hrec
                exact Except.noConfusion hrec

/-- C4 (corrected): every top-level recovery call terminates — `recover` is
a total function whose recursion strictly shrinks the unvisited remote key
set — and the visited-set guard does abort with `cyclic_dependency` on a
repeated `(kind, id)` pair; but because extracted dependencies descend the
fixed hierarchy test → sample → order → customer, a repeated pair never
occurs from a top-level call, so a reference cycle in the raw payloads does
not make `ensure` report `cyclic_dependency` (it is simply ignored — see
the counterexample, where `ensure` succeeds). -/
theorem recovery_cycle_guard_amended :
    (∀ (env : RecoveryEnv) (st : RecoveryState) (t : EntityType) (i : Int)
       (visited : Finset EntityKey), (t, i) ∈ visited →
       recover env st t i visited = .error (.cyclicDependency t i)) ∧
    (∀ (env : RecoveryEnv) (st : RecoveryState) (t : EntityType) (i : Int)
       (e : RecoveryException), recover env st t i ∅ = .error e →
       ∀ (t2 : EntityType) (i2 : Int), e ≠ .cyclicDependency t2 i2) := by
  constructor
  · intro env st t i visited hv
    rw [recover]
    rw [dif_pos hv]
  · intro env st t i e hrec t2 i2
    exact recover_no_cycle env (rank t) t i ∅ st le_rfl
      (fun k hk => absurd hk (Finset.not_mem_empty k)) e hrec t2 i2

/-- Witness for the hypothesised parts of the C4 theorem: a pair already in
the visited set aborts with the cyclic-dependency error. -/
theorem recovery_cycle_guard_amended_witness :
    recover c4Env ⟨[]⟩ EntityType.samples 1 {(EntityType.samples, 1)}
      = .error (.cyclicDependency EntityType.samples 1) :=
  recovery_cycle_guard_amended.1 c4Env ⟨[]⟩ EntityType.samples 1
    {(EntityType.samples, 1)} (Finset.mem_singleton_self _)

/-- C4 counterexample: with payloads whose raw references form a cycle
(sample 1 ↔ order 1), `ensure` on sample 1 terminates and succeeds instead
of reporting a `cyclic_dependency` failure, contradicting the claim. -/
theorem recovery_cycle_guard_cex :
    (fetchRemote c4Env (EntityType.samples, 1)).map RemotePayload.rawRefs
      = some [(EntityType.orders, 1)] ∧
    (fetchRemote c4Env (EntityType.orders, 1)).map RemotePayload.rawRefs
      = some [(EntityType.samples, 1)] ∧
    (ensure c4Env ⟨[]⟩ "samples" 1).1 = ⟨true, none⟩ := by
  refine ⟨rfl, rfl, ?_⟩
  have hf3 : fetchRemote c4Env (EntityType.customers, 7)
      = some { depId := none, rawRefs := [] } := rfl
  have hf2 : fetchRemote c4Env (EntityType.orders, 1)
      = some { depId := some 7, rawRefs := [(EntityType.samples, 1)] } := rfl
  have hf1 : fetchRemote c4Env (EntityType.samples, 1)
      = some { depId := some 1, rawRefs := [(EntityType.orders, 1)] } := rfl
  have h2 : recover c4Env ⟨[]⟩ EntityType.customers 7
      (insert (EntityType.orders, 1) (insert (EntityType.samples, 1) ∅))
      = .ok ⟨[(EntityType.customers, 7)]⟩ := by
    rw [recover]
    rw [dif_neg (by decide)]
    rw [if_neg (by simp)]
    split
    · next heq => rw [hf3] at heq; exact Option.noConfusion heq
    · next payload heq =>
      rw [hf3] at heq
      injection heq with hpay
      subst hpay
      rfl
  have h3 : recover c4Env ⟨[]⟩ EntityType.orders 1 (insert (EntityType.samples, 1) ∅)
      = .ok ⟨[(EntityType.orders, 1), (EntityType.customers, 7)]⟩ := by
    rw [recover]
    rw [dif_neg (by decide)]
    rw [if_neg (by simp)]
    split
    · next heq => rw [hf2] at heq; exact Option.noConfusion heq
    · next payload heq =>
      rw [hf2] at heq
      injection heq with hpay
      subst hpay
      simp only [depTarget, h2]
  have h4 : recover c4Env ⟨[]⟩ EntityType.samples 1 ∅
      = .ok ⟨[(EntityType.samples, 1), (EntityType.orders, 1),
              (EntityType.customers, 7)]⟩ := by
    rw [recover]
    rw [dif_neg (by decide)]
    rw [if_neg (by simp)]
    split
    · next heq => rw [hf1] at heq; exact Option.noConfusion heq
    · next payload heq =>
      rw [hf1] at heq
      injection heq with hpay
      subst hpay
      simp only [depTarget, h3]
  have halias : ENTITY_ALIASES "samples" = some EntityType.samples := rfl
  simp [ensure, halias, h4]

/-- C3 counterexample: an order that is both stale (id 3 ≤ last_id 10) and
references unknown customer 77 is counted as skipped-unknown-customer, not
as skipped-stale, contradicting the claim that every worker checks
staleness first. -/
theorem skip_precedence_cex :
    isStale c3Cfg.fullRefresh c3Cfg.lastId c3Item.id = true ∧
    (77 : Int) ∉ c3St.knownCustomers ∧
    (processOrderItems c3Cfg c3St false [c3Item]).1.skippedOld = 0 ∧
    (processOrderItems c3Cfg c3St false [c3Item]).1.skippedUnknownCustomer = 1 := by
  refine ⟨by decide, by simp [c3St], by decide, by decide⟩

end QBD
